import Mathlib

/-!
Shallow embedding of the mesh-generation wrappers of `src/skgmsh/__init__.py`
(`delaunay_3d`, `frontal_delaunay_2d`, `generate_mesh`) over an explicit
model of the gmsh kernel session state.

The gmsh kernel itself is external native code; its observable surface is
modelled as
  * a session state (`GmshState`) holding the initialized flag, cumulative
    initialize/finalize/clear counters, the next automatic tags for points,
    curves, curve loops and surfaces, and a trace of all API calls made in
    the current session;
  * an oracle (`GenOutcome`) giving the outcome of
    `gmsh.model.mesh.generate` together with the arrays that
    `getNodes`/`getElements` would subsequently return.

Numeric values (coordinates, mesh sizes) are represented by `ℚ`: the
wrapper code never computes with them, it only passes them through to the
kernel, so the embedding is exact.
-/

namespace Skgmsh

/-- Constant `INITIAL_MESH_ONLY_2D = 3` from the source. -/
def INITIAL_MESH_ONLY_2D : Int := 3

/-- Constant `FRONTAL_DELAUNAY_2D = 6` from the source. -/
def FRONTAL_DELAUNAY_2D : Int := 6

/-- Constant `DELAUNAY_3D = 1` from the source. -/
def DELAUNAY_3D : Int := 1

/-- Constant `INITIAL_MESH_ONLY_3D = 3` from the source. -/
def INITIAL_MESH_ONLY_3D : Int := 3

/-- Constant `SILENT = 0` from the source. -/
def SILENT : Int := 0

/-- Constant `SIMPLE = 0` from the source. -/
def SIMPLE : Int := 0

/-- Constant `TRUE = 1` from the source. -/
def TRUE : Int := 1

/-- Constant `FALSE = 0` from the source. -/
def FALSE : Int := 0

/-- PyVista cell types appearing in `gmsh_to_pyvista_type` in the source
(`pv.CellType.LINE`, `TRIANGLE`, `QUAD`, `TETRA`, `HEXAHEDRON`, `WEDGE`,
`PYRAMID`, `VERTEX`). -/
inductive CellType where
  | vertex
  | line
  | triangle
  | quad
  | tetra
  | hexahedron
  | wedge
  | pyramid
deriving DecidableEq, Repr

/-- Names of the gmsh options set through `gmsh.option.set_number` by the
wrappers.  Each constructor stands for the option string of the same
spelling: `meshAlgorithm` is "Mesh.Algorithm", `meshAlgorithm3D` is
"Mesh.Algorithm3D", `meshSizeExtendFromBoundary` is
"Mesh.MeshSizeExtendFromBoundary", `meshSizeFromPoints` is
"Mesh.MeshSizeFromPoints", `meshSizeFromCurvature` is
"Mesh.MeshSizeFromCurvature", `generalVerbosity` is "General.Verbosity",
`algorithmSwitchOnFailure` is "Mesh.AlgorithmSwitchOnFailure",
`recombinationAlgorithm` is "Mesh.RecombinationAlgorithm", and
`recombineNodeRepositioning` is "Mesh.RecombineNodeRepositioning". -/
inductive OptName where
  | meshAlgorithm
  | meshAlgorithm3D
  | meshSizeExtendFromBoundary
  | meshSizeFromPoints
  | meshSizeFromCurvature
  | generalVerbosity
  | algorithmSwitchOnFailure
  | recombinationAlgorithm
  | recombineNodeRepositioning
deriving DecidableEq, Repr

/-- Python exceptions that the embedded code can raise: `valueError` for
tuple-unpacking and array-reshape failures, `assertionError` for a failed
`assert`, `indexError` for an out-of-range array access, `keyError c` for
a missing dictionary key `c`, and `gmshError c` for an error raised inside
the gmsh kernel itself (the code `c` carries no structure here). -/
inductive Err where
  | valueError
  | assertionError
  | indexError
  | keyError (code : Int)
  | gmshError (code : Int)
deriving DecidableEq, Repr

/-- Observable gmsh API calls, recorded in the session trace. -/
inductive Event where
  | init
  | finalizeCall
  | clearCall
  | setOption (name : OptName) (value : Int)
  | addPoint (tag : Int) (x y z size : ℚ)
  | addLine (tag startTag endTag : Int)
  | addCurveLoop (tag : Int) (curves : List Int)
  | addPlaneSurface (tag : Int) (wires : List Int)
  | addSurfaceLoop (tag : Int) (surfaces : List Int)
  | addVolume (tag : Int) (shells : List Int)
  | removeAllDuplicates
  | synchronize
  | setRecombine (dim tag : Int)
  | embed (dim : Int) (tags : List Int) (targetDim targetTag : Int)
  | generate (dim : Int)
deriving DecidableEq, Repr

/-- Model of the gmsh kernel session.  `initCount`, `finalizeCount` and
`clearCount` are cumulative over the whole process lifetime; the `next*`
fields are the automatic tags gmsh would assign to the next entity of each
kind; `trace` records the API calls of the current session (reset by
`initialize`). -/
structure GmshState where
  initialized : Bool := false
  initCount : Nat := 0
  finalizeCount : Nat := 0
  clearCount : Nat := 0
  nextPointTag : Int := 1
  nextLineTag : Int := 1
  nextCurveLoopTag : Int := 1
  nextSurfaceTag : Int := 1
  trace : List Event := []
deriving DecidableEq, Repr

/-- The state of a process that has never touched the kernel. -/
def GmshState.fresh : GmshState := {}

/-- State of a freshly opened session: the model is empty (automatic tags
reset to 1), the trace starts with the `init` event, and the cumulative
initialize counter advances. -/
def sessionStart (s : GmshState) : GmshState :=
  { s with
    initialized := true
    initCount := s.initCount + 1
    nextPointTag := 1
    nextLineTag := 1
    nextCurveLoopTag := 1
    nextSurfaceTag := 1
    trace := [Event.init] }

/-- Model of `gmsh.initialize()`: errors when a session is already open
(the gmsh API raises in that case), otherwise opens a fresh session whose
trace starts with the `init` event. -/
def initializeK (s : GmshState) : Except Err Unit × GmshState :=
  if s.initialized then
    (Except.error (Err.gmshError 1), s)
  else
    (Except.ok (), sessionStart s)

/-- Model of `gmsh.finalize()`: closes the session. -/
def finalizeK (s : GmshState) : GmshState :=
  { s with
    initialized := false
    finalizeCount := s.finalizeCount + 1
    trace := s.trace ++ [Event.finalizeCall] }

/-- Model of `gmsh.clear()`: empties the model, resetting the automatic
tags, but keeps the session open. -/
def clearK (s : GmshState) : GmshState :=
  { s with
    clearCount := s.clearCount + 1
    nextPointTag := 1
    nextLineTag := 1
    nextCurveLoopTag := 1
    nextSurfaceTag := 1
    trace := s.trace ++ [Event.clearCall] }

/-- Model of `gmsh.option.set_number(name, value)`. -/
def setOpt (name : OptName) (value : Int) (s : GmshState) : GmshState :=
  { s with trace := s.trace ++ [Event.setOption name value] }

/-- Model of `gmsh.model.geo.add_point(x, y, z, size, tag)` with an
explicit tag.  The automatic point tag is bumped past the explicit one,
as gmsh does. -/
def addPointTagged (x y z size : ℚ) (tag : Int) (s : GmshState) : GmshState :=
  { s with
    nextPointTag := max s.nextPointTag (tag + 1)
    trace := s.trace ++ [Event.addPoint tag x y z size] }

/-- Model of `gmsh.model.geo.add_point(x, y, z, size)` with an automatic
tag; returns the tag gmsh assigns. -/
def addPointAuto (x y z size : ℚ) (s : GmshState) : Int × GmshState :=
  (s.nextPointTag,
   { s with
     nextPointTag := s.nextPointTag + 1
     trace := s.trace ++ [Event.addPoint s.nextPointTag x y z size] })

/-- Model of `gmsh.model.geo.add_line(startTag, endTag, tag)` with an
explicit tag. -/
def addLineTagged (startTag endTag tag : Int) (s : GmshState) : GmshState :=
  { s with
    nextLineTag := max s.nextLineTag (tag + 1)
    trace := s.trace ++ [Event.addLine tag startTag endTag] }

/-- Model of `gmsh.model.geo.add_line(startTag, endTag)` with an automatic
tag; returns the tag gmsh assigns. -/
def addLineAuto (startTag endTag : Int) (s : GmshState) : Int × GmshState :=
  (s.nextLineTag,
   { s with
     nextLineTag := s.nextLineTag + 1
     trace := s.trace ++ [Event.addLine s.nextLineTag startTag endTag] })

/-- Model of `gmsh.model.geo.add_curve_loop(curves, tag)` with an explicit
tag. -/
def addCurveLoopTagged (curves : List Int) (tag : Int) (s : GmshState) : GmshState :=
  { s with
    nextCurveLoopTag := max s.nextCurveLoopTag (tag + 1)
    trace := s.trace ++ [Event.addCurveLoop tag curves] }

/-- Model of `gmsh.model.geo.add_curve_loop(curves)` with an automatic
tag; returns the tag gmsh assigns. -/
def addCurveLoopAuto (curves : List Int) (s : GmshState) : Int × GmshState :=
  (s.nextCurveLoopTag,
   { s with
     nextCurveLoopTag := s.nextCurveLoopTag + 1
     trace := s.trace ++ [Event.addCurveLoop s.nextCurveLoopTag curves] })

/-- Model of `gmsh.model.geo.add_plane_surface(wires, tag)` with an
explicit tag. -/
def addPlaneSurfaceTagged (wires : List Int) (tag : Int) (s : GmshState) : GmshState :=
  { s with
    nextSurfaceTag := max s.nextSurfaceTag (tag + 1)
    trace := s.trace ++ [Event.addPlaneSurface tag wires] }

/-- Model of `gmsh.model.geo.add_plane_surface(wires)` with an automatic
tag. -/
def addPlaneSurfaceAuto (wires : List Int) (s : GmshState) : Int × GmshState :=
  (s.nextSurfaceTag,
   { s with
     nextSurfaceTag := s.nextSurfaceTag + 1
     trace := s.trace ++ [Event.addPlaneSurface s.nextSurfaceTag wires] })

/-- Model of `gmsh.model.geo.add_surface_loop(surfaces, tag)`. -/
def addSurfaceLoopK (surfaces : List Int) (tag : Int) (s : GmshState) : GmshState :=
  { s with trace := s.trace ++ [Event.addSurfaceLoop tag surfaces] }

/-- Model of `gmsh.model.geo.add_volume(shells, tag)`. -/
def addVolumeK (shells : List Int) (tag : Int) (s : GmshState) : GmshState :=
  { s with trace := s.trace ++ [Event.addVolume tag shells] }

/-- Model of `gmsh.model.geo.remove_all_duplicates()`. -/
def removeAllDuplicatesK (s : GmshState) : GmshState :=
  { s with trace := s.trace ++ [Event.removeAllDuplicates] }

/-- Model of `gmsh.model.geo.synchronize()`. -/
def synchronizeK (s : GmshState) : GmshState :=
  { s with trace := s.trace ++ [Event.synchronize] }

/-- Model of `gmsh.model.mesh.set_recombine(dim, tag)`. -/
def setRecombineK (dim tag : Int) (s : GmshState) : GmshState :=
  { s with trace := s.trace ++ [Event.setRecombine dim tag] }

/-- Model of `gmsh.model.mesh.embed(dim, tags, targetDim, targetTag)`. -/
def embedK (dim : Int) (tags : List Int) (targetDim targetTag : Int)
    (s : GmshState) : GmshState :=
  { s with trace := s.trace ++ [Event.embed dim tags targetDim targetTag] }

/-- Outcome of `gmsh.model.mesh.generate(dim)` together with the arrays the
subsequent `getNodes()` and `getElements()` calls would return: this is the
oracle standing for the external meshing kernel.  `getNodes` yields the
node tag array and the flat coordinate array; `getElements` yields, per
element type, the type code, the element tag array and the flat
element-node-tag array. -/
inductive GenOutcome where
  | fail (e : Err)
  | success (nodeTags : List Int) (coord : List ℚ) (elementTypes : List Int)
      (elementTags : List (List Int)) (elementNodeTags : List (List Int))
deriving DecidableEq, Repr

/-- Embedding of `(np.diff(a) > 0).all()` on the kernel's tag arrays.
gmsh returns node and element tags as numpy uint64 (size_t) arrays, so
`np.diff` computes the wrapped difference modulo `2 ^ 64`: an adjacent
pair `(a, b)` contributes `(b - a) % 2 ^ 64`, and the check passes
exactly when every such wrapped difference is positive (vacuously true
on arrays of length below two, as for numpy). -/
def diffAllPos : List Int → Bool
  | [] => true
  | [_] => true
  | a :: b :: rest => decide (0 < (b - a) % (2 : Int) ^ 64) && diffAllPos (b :: rest)

/-- No two adjacent entries of the array are equal: for arrays of uint64
values this is exactly the condition under which the numpy check
`(np.diff(a) > 0).all()` passes (see `diffAllPos_eq_noAdjacentEqual`) —
the wrapped difference of a decreasing-but-unequal adjacent pair is
still positive. -/
def noAdjacentEqual : List Int → Bool
  | [] => true
  | [_] => true
  | a :: b :: rest => decide (a ≠ b) && noAdjacentEqual (b :: rest)

/-- Three-way zip truncating to the shortest list, embedding Python
`zip(xs, ys, zs, strict=False)`. -/
def zip3 : List α → List β → List γ → List (α × β × γ)
  | a :: as, b :: bs, c :: cs => (a, b, c) :: zip3 as bs cs
  | _, _, _ => []

/-- Chunking helper driven by explicit fuel; `chunkFuel fuel n l` splits
`l` into consecutive groups of `n`, as long as the fuel lasts. -/
def chunkFuel : Nat → Nat → List α → List (List α)
  | 0, _, _ => []
  | _, _, [] => []
  | fuel + 1, n, x :: xs => (x :: xs).take n :: chunkFuel fuel n ((x :: xs).drop n)

/-- Embedding of `np.reshape(l, (-1, n))`: defined exactly when `n` is
positive and divides the length, in which case it yields the rows. -/
def reshapeRows (n : Nat) (l : List α) : Option (List (List α)) :=
  if n = 0 then none
  else if n ∣ l.length then some (chunkFuel l.length n l) else none

/-- Embedding of the `gmsh_to_pyvista_type` dictionary of `generate_mesh`. -/
def gmsh_to_pyvista_type (t : Int) : Option CellType :=
  if t = 1 then some CellType.line
  else if t = 2 then some CellType.triangle
  else if t = 3 then some CellType.quad
  else if t = 4 then some CellType.tetra
  else if t = 5 then some CellType.hexahedron
  else if t = 6 then some CellType.wedge
  else if t = 7 then some CellType.pyramid
  else if t = 15 then some CellType.vertex
  else none

/-- Number of nodes of each gmsh element type, the value of
`gmsh.model.mesh.getElementProperties(t)[3]`.  These are fixed constants
of the MSH element taxonomy (line 2, triangle 3, quad 4, tetrahedron 4,
hexahedron 8, prism 6, pyramid 5, point 1); the function is only ever
applied to type codes present in `gmsh_to_pyvista_type`. -/
def numNodesOfCode (t : Int) : Nat :=
  if t = 1 then 2
  else if t = 2 then 3
  else if t = 3 then 4
  else if t = 4 then 4
  else if t = 5 then 8
  else if t = 6 then 6
  else if t = 7 then 5
  else if t = 15 then 1
  else 0

/-- Ordered association list embedding the Python `cells` dict of
`generate_mesh` (insertion order preserved, assignment to an existing key
overwrites in place). -/
def insertCell (k : CellType) (v : List (List Int)) :
    List (CellType × List (List Int)) → List (CellType × List (List Int))
  | [] => [(k, v)]
  | (k', v') :: rest =>
      if k' = k then (k, v) :: rest else (k', v') :: insertCell k v rest

/-- PyVista `UnstructuredGrid` as built by `generate_mesh`: the reshaped
point coordinates plus, per cell type in dict order, the connectivity
rows.  (Point-data/cell-data arrays are not modelled; `clear_data` in
`delaunay_3d` is a no-op on this representation.) -/
structure Mesh where
  points : List (List ℚ)
  blocks : List (CellType × List (List Int))
deriving DecidableEq, Repr

/-- Cells of the grid in iteration order (`mesh.cell` in the source): each
cell is its type paired with its connectivity row. -/
def Mesh.cellList (m : Mesh) : List (CellType × List Int) :=
  m.blocks.flatMap fun b => b.2.map fun row => (b.1, row)

/-- Embedding of the per-type element loop of `generate_mesh`:
`assert (np.diff(tags) > 0).all()`, the `gmsh_to_pyvista_type[type_]`
lookup, and `np.reshape(node_tags, (-1, num_nodes)) - 1`, accumulating
into the `cells` dict. -/
def buildCells : List (Int × List Int × List Int) →
    List (CellType × List (List Int)) → Except Err (List (CellType × List (List Int)))
  | [], d => Except.ok d
  | (t, tags, nodeT) :: rest, d =>
      if diffAllPos tags then
        match gmsh_to_pyvista_type t with
        | none => Except.error (Err.keyError t)
        | some ct =>
            match reshapeRows (numNodesOfCode t) nodeT with
            | none => Except.error Err.valueError
            | some rows => buildCells rest (insertCell ct (rows.map (List.map (· - 1))) d)
      else Except.error Err.assertionError

/-- Embedding of the `try` body of `generate_mesh` after `generate(dim)`
succeeded: node assertion, coordinate reshape, element loop, grid
construction. -/
def extractMesh (nodeTags : List Int) (coord : List ℚ) (elementTypes : List Int)
    (elementTags : List (List Int)) (elementNodeTags : List (List Int)) :
    Except Err Mesh :=
  if diffAllPos nodeTags then
    match reshapeRows 3 coord with
    | none => Except.error Err.valueError
    | some pts =>
        (buildCells (zip3 elementTypes elementTags elementNodeTags) []).map
          fun d => { points := pts, blocks := d }
  else Except.error Err.assertionError

/-- Embedding of `generate_mesh(dim)`: run generation and extraction under
`try`, then unconditionally (`finally`) run `gmsh.clear()` and
`gmsh.finalize()`; the body's exception, if any, propagates unchanged. -/
def generate_mesh (dim : Int) (o : GenOutcome) (s : GmshState) :
    Except Err Mesh × GmshState :=
  let s1 := { s with trace := s.trace ++ [Event.generate dim] }
  let r : Except Err Mesh :=
    match o with
    | GenOutcome.fail e => Except.error e
    | GenOutcome.success nt c ets etags entags => extractMesh nt c ets etags entags
  (r, finalizeK (clearK s1))

/-- Embedding of the post-processing loops of `delaunay_3d` and
`frontal_delaunay_2d` that collect the indices of unwanted cells
(`for i, cell in enumerate(mesh.cell): if <bad>: ind.append(i)`); `keep`
is the negation of the badness test. -/
def nonMatchingIndices (keep : CellType × List Int → Bool) :
    List (CellType × List Int) → Nat → List Nat
  | [], _ => []
  | c :: cs, i =>
      if keep c then nonMatchingIndices keep cs (i + 1)
      else i :: nonMatchingIndices keep cs (i + 1)

/-- Index-based cell removal, embedding `mesh.remove_cells(ind)`: the cell
at each listed flat index is dropped, all others survive in order. -/
def removeCellsAux (ind : List Nat) : List (CellType × List Int) → Nat →
    List (CellType × List Int)
  | [], _ => []
  | c :: cs, i =>
      if i ∈ ind then removeCellsAux ind cs (i + 1)
      else c :: removeCellsAux ind cs (i + 1)

/-- Embedding of `mesh.remove_cells(ind)` at the grid level: points are
kept, surviving cells are re-blocked one cell per block (the observable
cell sequence is unchanged by the blocking). -/
def Mesh.removeCells (m : Mesh) (ind : List Nat) : Mesh :=
  { points := m.points
    blocks := (removeCellsAux ind m.cellList 0).map fun c => (c.1, [c.2]) }

/-- Input point, a row of `edge_source.points`. -/
structure P3 where
  x : ℚ
  y : ℚ
  z : ℚ
deriving DecidableEq, Repr

/-- PolyData input of `delaunay_3d`: the point array and the faces
(`edge_source.irregular_faces`), each face a list of 0-based point
indices. -/
structure Surface where
  points : List P3
  faces : List (List Nat)
deriving DecidableEq, Repr

/-- PolyData input of the second branch of `frontal_delaunay_2d`: the
point array and the VTK `lines` connectivity array
(`[n, i_0, i_1, ..., i_(n-1)]` for a polyline through the listed 0-based
point indices). -/
structure PolyData where
  points : List P3
  lines : List Int
deriving DecidableEq, Repr

/-- Shapely linear ring: its closed coordinate sequence (first point
repeated last, the shapely invariant), each coordinate a tuple of 2 or 3
numbers. -/
structure Ring where
  coords : List (List ℚ)
deriving DecidableEq, Repr

/-- Shapely polygon input of the first branch of `frontal_delaunay_2d`:
an exterior ring plus interior rings (holes). -/
structure Polygon where
  exterior : Ring
  interiors : List Ring
deriving DecidableEq, Repr

/-- The `target_sizes` argument where each entry is a number: `none` for
the Python `None` default, `Sum.inl q` for a scalar, `Sum.inr l` for a
per-vertex sequence. -/
abbrev SizeSpec := Option (ℚ ⊕ List ℚ)

/-- The `target_sizes` argument of the shapely branch, where a sequence
entry is itself a scalar (replicated over the ring) or a per-vertex
sequence for that ring. -/
abbrev RingSizeSpec := Option (ℚ ⊕ List (ℚ ⊕ List ℚ))

/-- Embedding of the scalar-size normalisation shared by `delaunay_3d` and
the PolyData branch of `frontal_delaunay_2d`:
`if target_sizes is None: target_sizes = 0.0` followed by
`if isinstance(target_sizes, float): target_sizes = [target_sizes] * n`
with `n = edge_source.number_of_points`. -/
def resolveSizes (ts : SizeSpec) (n : Nat) : List ℚ :=
  match ts with
  | none => List.replicate n 0
  | some (Sum.inl q) => List.replicate n q
  | some (Sum.inr l) => l

/-- Embedding of the per-ring size normalisation of the shapely branch:
`None` becomes the scalar `0.0`, and a scalar is replicated once per ring
(`[target_sizes] * (len(interiors) + 1)`, so `k` is the number of rings). -/
def resolveRingSizes (ts : RingSizeSpec) (k : Nat) : List (ℚ ⊕ List ℚ) :=
  match ts with
  | none => List.replicate k (Sum.inl 0)
  | some (Sum.inl q) => List.replicate k (Sum.inl q)
  | some (Sum.inr l) => l

/-- Embedding of the point loop of `delaunay_3d`:
`for i, (point, target_size) in enumerate(zip(points, target_sizes))`
creating a point with explicit tag `i + 1`. -/
def addPoints3d : List (P3 × ℚ) → Nat → GmshState → GmshState
  | [], _, s => s
  | (p, sz) :: rest, i, s =>
      addPoints3d rest (i + 1) (addPointTagged p.x p.y p.z sz ((i : Int) + 1) s)

/-- Edge list traversed by `for j, _ in enumerate(face)` with endpoints
`face[j - 1]` and `face[j]`: Python's negative indexing makes `j = 0` pair
the last entry with the first, so the edges wrap around the face. -/
def cyclicEdges (face : List Nat) : List (Nat × Nat) :=
  (List.range face.length).map fun j =>
    (face.getD ((j + face.length - 1) % face.length) 0, face.getD j 0)

/-- Wrap-around edge list over already-created point tags, traversed by
`for i, _ in enumerate(tags)` with endpoints `tags[i - 1]` and `tags[i]`
in the shapely branch of `frontal_delaunay_2d`. -/
def cyclicEdgesInt (tags : List Int) : List (Int × Int) :=
  (List.range tags.length).map fun j =>
    (tags.getD ((j + tags.length - 1) % tags.length) 0, tags.getD j 0)

/-- Loop creating one automatically tagged line per listed edge and
collecting the returned curve tags. -/
def addLinesAuto : List (Int × Int) → GmshState → List Int × GmshState
  | [], s => ([], s)
  | (a, b) :: rest, s =>
      let (tag, s1) := addLineAuto a b s
      let (tags, s2) := addLinesAuto rest s1
      (tag :: tags, s2)

/-- Embedding of the face loop of `delaunay_3d`: for the `i`-th face,
create one line per wrap-around edge (endpoint tags are the 0-based point
indices plus one), a curve loop with explicit tag `i + 1`, a plane surface
with explicit tag `i + 1`, and append `i + 1` to `surface_loop`.  Returns
the collected `surface_loop`. -/
def facesLoop3d : List (List Nat) → Nat → GmshState → List Int × GmshState
  | [], _, s => ([], s)
  | face :: rest, i, s =>
      let edges := (cyclicEdges face).map fun e => ((e.1 : Int) + 1, (e.2 : Int) + 1)
      let (curveTags, s1) := addLinesAuto edges s
      let s2 := addCurveLoopTagged curveTags ((i : Int) + 1) s1
      let s3 := addPlaneSurfaceTagged [(i : Int) + 1] ((i : Int) + 1) s2
      let (tags, s4) := facesLoop3d rest (i + 1) s3
      (((i : Int) + 1) :: tags, s4)

/-- Embedding of the option block of `delaunay_3d` (everything between
`gmsh.initialize()` and the size normalisation). -/
def setOptions3d (ts : SizeSpec) (s : GmshState) : GmshState :=
  let s1 :=
    match ts with
    | none =>
        s |> setOpt OptName.meshAlgorithm INITIAL_MESH_ONLY_3D
          |> setOpt OptName.meshSizeExtendFromBoundary 0
          |> setOpt OptName.meshSizeFromPoints 0
          |> setOpt OptName.meshSizeFromCurvature 0
    | some _ => setOpt OptName.meshAlgorithm3D DELAUNAY_3D s
  s1 |> setOpt OptName.generalVerbosity SILENT
     |> setOpt OptName.algorithmSwitchOnFailure FALSE
     |> setOpt OptName.recombinationAlgorithm SIMPLE
     |> setOpt OptName.recombineNodeRepositioning FALSE

/-- Geometry-construction phase of `delaunay_3d` (from the size
normalisation up to and including the second `synchronize`); it performs
no fallible Python operation. -/
def build3d (es : Surface) (ts : SizeSpec) (s : GmshState) : GmshState :=
  let sizes := resolveSizes ts es.points.length
  let s1 := addPoints3d (es.points.zip sizes) 0 s
  let (surfaceLoop, s2) := facesLoop3d es.faces 0 s1
  let s3 := synchronizeK (removeAllDuplicatesK s2)
  let s4 := addVolumeK [1] 1 (addSurfaceLoopK surfaceLoop 1 s3)
  synchronizeK s4

/-- Keep-predicate of the post-filter of `delaunay_3d`: the index of every
cell with `cell.type != pv.CellType.TETRA` is collected for removal. -/
def keepTetra (c : CellType × List Int) : Bool :=
  c.1 = CellType.tetra

/-- Keep-predicate of the post-filter of `frontal_delaunay_2d`: the index
of every cell with `cell.type in [pv.CellType.VERTEX, pv.CellType.LINE]`
is collected for removal. -/
def keep2d (c : CellType × List Int) : Bool :=
  !(c.1 = CellType.vertex ∨ c.1 = CellType.line)

/-- Embedding of `delaunay_3d(edge_source, target_sizes)`.  `o` is the
kernel oracle consumed by `generate_mesh`. -/
def delaunay_3d (es : Surface) (ts : SizeSpec) (o : GenOutcome)
    (s0 : GmshState) : Except Err Mesh × GmshState :=
  match initializeK s0 with
  | (Except.error e, s) => (Except.error e, s)
  | (Except.ok _, s1) =>
      let s2 := build3d es ts (setOptions3d ts s1)
      match generate_mesh 3 o s2 with
      | (Except.error e, s3) => (Except.error e, s3)
      | (Except.ok mesh, s3) =>
          let ind := nonMatchingIndices keepTetra mesh.cellList 0
          (Except.ok (mesh.removeCells ind), s3)

/-- Embedding of the option block shared by both branches of
`frontal_delaunay_2d` (everything between `gmsh.initialize()` and the
branch dispatch). -/
def setOptions2d (ts : Option α) (s : GmshState) : GmshState :=
  let s1 :=
    match ts with
    | none =>
        s |> setOpt OptName.meshAlgorithm INITIAL_MESH_ONLY_2D
          |> setOpt OptName.meshSizeExtendFromBoundary 0
          |> setOpt OptName.meshSizeFromPoints 0
          |> setOpt OptName.meshSizeFromCurvature 0
    | some _ => setOpt OptName.meshAlgorithm FRONTAL_DELAUNAY_2D s
  setOpt OptName.generalVerbosity SILENT s1

/-- Embedding of the embedded-points loop of the PolyData branch:
`for target_size, point in zip(target_sizes, points)` creating one
automatically tagged point each and collecting the tags. -/
def addPoints2d : List (ℚ × P3) → GmshState → List Int × GmshState
  | [], s => ([], s)
  | (sz, p) :: rest, s =>
      let (tag, s1) := addPointAuto p.x p.y p.z sz s
      let (tags, s2) := addPoints2d rest s1
      (tag :: tags, s2)

/-- Embedding of the line loop of the PolyData branch:
`for i in range(lines[0] - 1)` creating a line from point tag
`lines[i + 1] + 1` to `lines[i + 2] + 1` with explicit tag `i + 1`; an
out-of-range access into the `lines` array raises. -/
def linesLoop2d (lines : List Int) : Nat → Nat → GmshState →
    Except Err Unit × GmshState
  | 0, _, s => (Except.ok (), s)
  | k + 1, i, s =>
      match lines.get? (i + 1), lines.get? (i + 2) with
      | some a, some b =>
          linesLoop2d lines k (i + 1) (addLineTagged (a + 1) (b + 1) ((i : Int) + 1) s)
      | _, _ => (Except.error Err.indexError, s)

/-- Geometry-construction phase of the PolyData branch of
`frontal_delaunay_2d` (points, lines, curve loop, plane surface,
synchronize, embed); returns the embedded point tags.  Reading `lines[0]`
from an empty connectivity array, or running the line loop past the end of
the array, raises. -/
def buildPolyData (es : PolyData) (sizes : List ℚ) (s : GmshState) :
    Except Err Unit × GmshState :=
  let (embeddedPoints, s1) := addPoints2d (sizes.zip es.points) s
  match es.lines.get? 0 with
  | none => (Except.error Err.indexError, s1)
  | some n =>
      match linesLoop2d es.lines (n - 1).toNat 0 s1 with
      | (Except.error e, s2) => (Except.error e, s2)
      | (Except.ok _, s2) =>
          let s3 := addCurveLoopTagged
            ((List.range (n - 1).toNat).map fun k => ((k : Int) + 1)) 1 s2
          let s4 := synchronizeK (addPlaneSurfaceTagged [1] 1 s3)
          (Except.ok (), embedK 0 embeddedPoints 2 1 s4)

/-- Embedding of `x, y, z = coord`: succeeds exactly on 3-component
coordinates, raising `ValueError` otherwise (shapely coordinates may have
only 2 components). -/
def unpack3 : List ℚ → Except Err (ℚ × ℚ × ℚ)
  | [x, y, z] => Except.ok (x, y, z)
  | _ => Except.error Err.valueError

/-- Embedding of the point loop of one ring of the shapely branch:
`for size, coord in zip(sizes, coords)` unpacking each coordinate and
creating one automatically tagged point, collecting the tags. -/
def ringPointsLoop : List (ℚ × List ℚ) → GmshState →
    Except Err (List Int) × GmshState
  | [], s => (Except.ok [], s)
  | (sz, coord) :: rest, s =>
      match unpack3 coord with
      | Except.error e => (Except.error e, s)
      | Except.ok (x, y, z) =>
          let (tag, s1) := addPointAuto x y z sz s
          match ringPointsLoop rest s1 with
          | (Except.error e, s2) => (Except.error e, s2)
          | (Except.ok tags, s2) => (Except.ok (tag :: tags), s2)

/-- Embedding of the ring loop of the shapely branch:
`for target_size, linearring in zip(target_sizes, [exterior, *interiors])`
building per-ring sizes, the ring's points (over `coords[:-1]`), its
wrap-around lines and its curve loop, collecting the wire tags. -/
def ringsLoop : List ((ℚ ⊕ List ℚ) × Ring) → GmshState →
    Except Err (List Int) × GmshState
  | [], s => (Except.ok [], s)
  | (rsize, ring) :: rest, s =>
      let sizes :=
        match rsize with
        | Sum.inl q => List.replicate (ring.coords.length - 1) q
        | Sum.inr l => l
      let coords := ring.coords.dropLast
      match ringPointsLoop (sizes.zip coords) s with
      | (Except.error e, s1) => (Except.error e, s1)
      | (Except.ok tags, s1) =>
          let (curveTags, s2) := addLinesAuto (cyclicEdgesInt tags) s1
          let (wireTag, s3) := addCurveLoopAuto curveTags s2
          match ringsLoop rest s3 with
          | (Except.error e, s4) => (Except.error e, s4)
          | (Except.ok wireTags, s4) => (Except.ok (wireTag :: wireTags), s4)

/-- Geometry-construction phase of the shapely branch of
`frontal_delaunay_2d`: the ring loop, the plane surface over the collected
wire tags, and `synchronize`. -/
def buildPolygon (es : Polygon) (rsizes : List (ℚ ⊕ List ℚ)) (s : GmshState) :
    Except Err Unit × GmshState :=
  match ringsLoop (rsizes.zip (es.exterior :: es.interiors)) s with
  | (Except.error e, s1) => (Except.error e, s1)
  | (Except.ok wireTags, s1) =>
      (Except.ok (), synchronizeK (addPlaneSurfaceAuto wireTags s1).2)

/-- Post-generation filter shared by both branches of
`frontal_delaunay_2d`: collect the indices of vertex- and line-type cells
and remove them. -/
def filter2d (mesh : Mesh) : Mesh :=
  mesh.removeCells (nonMatchingIndices keep2d mesh.cellList 0)

/-- Embedding of `frontal_delaunay_2d(edge_source, target_sizes,
recombine)` on a PolyData edge source.  `o` is the kernel oracle consumed
by `generate_mesh`. -/
def frontal_delaunay_2d_polydata (es : PolyData) (ts : SizeSpec)
    (recombine : Bool) (o : GenOutcome) (s0 : GmshState) :
    Except Err Mesh × GmshState :=
  match initializeK s0 with
  | (Except.error e, s) => (Except.error e, s)
  | (Except.ok _, s1) =>
      let s2 := setOptions2d ts s1
      let sizes := resolveSizes ts es.points.length
      match buildPolyData es sizes s2 with
      | (Except.error e, s3) => (Except.error e, s3)
      | (Except.ok _, s3) =>
          let s4 := if recombine then setRecombineK 2 1 s3 else s3
          match generate_mesh 2 o s4 with
          | (Except.error e, s5) => (Except.error e, s5)
          | (Except.ok mesh, s5) => (Except.ok (filter2d mesh), s5)

/-- Embedding of `frontal_delaunay_2d(edge_source, target_sizes,
recombine)` on a shapely polygon edge source.  `o` is the kernel oracle
consumed by `generate_mesh`. -/
def frontal_delaunay_2d_polygon (es : Polygon) (ts : RingSizeSpec)
    (recombine : Bool) (o : GenOutcome) (s0 : GmshState) :
    Except Err Mesh × GmshState :=
  match initializeK s0 with
  | (Except.error e, s) => (Except.error e, s)
  | (Except.ok _, s1) =>
      let s2 := setOptions2d ts s1
      let rsizes := resolveRingSizes ts (es.interiors.length + 1)
      match buildPolygon es rsizes s2 with
      | (Except.error e, s3) => (Except.error e, s3)
      | (Except.ok _, s3) =>
          let s4 := if recombine then setRecombineK 2 1 s3 else s3
          match generate_mesh 2 o s4 with
          | (Except.error e, s5) => (Except.error e, s5)
          | (Except.ok mesh, s5) => (Except.ok (filter2d mesh), s5)

/-! ### Concrete inputs used by the witnesses -/

/-- Tetrahedral boundary surface with four triangular faces, a small
concrete `edge_source` for `delaunay_3d`. -/
def demoSurface : Surface :=
  { points := [⟨0, 0, 0⟩, ⟨1, 0, 0⟩, ⟨0, 1, 0⟩, ⟨0, 0, 1⟩]
    faces := [[0, 1, 2], [0, 1, 3], [0, 2, 3], [1, 2, 3]] }

/-- Kernel outcome for the 3D witness: four nodes, one tetrahedron and one
stray triangle. -/
def demoOutcome3d : GenOutcome :=
  GenOutcome.success [1, 2, 3, 4] [0, 0, 0, 1, 0, 0, 0, 1, 0, 0, 0, 1]
    [4, 2] [[1], [2]] [[1, 2, 3, 4], [1, 2, 3]]

/-- Expected witness mesh for `delaunay_3d`: only the tetrahedron
survives the post-filter. -/
def demoMesh3d : Mesh :=
  { points := [[0, 0, 0], [1, 0, 0], [0, 1, 0], [0, 0, 1]]
    blocks := [(CellType.tetra, [[0, 1, 2, 3]])] }

/-- Triangular polyline boundary, a small concrete PolyData
`edge_source` for `frontal_delaunay_2d`. -/
def demoPolyData : PolyData :=
  { points := [⟨0, 0, 0⟩, ⟨8, 0, 0⟩, ⟨0, 8, 0⟩]
    lines := [3, 0, 1, 2] }

/-- Kernel outcome for the 2D witnesses: three nodes, one triangle, one
stray line element and one stray point element. -/
def demoOutcome2d : GenOutcome :=
  GenOutcome.success [1, 2, 3] [0, 0, 0, 8, 0, 0, 0, 8, 0]
    [2, 1, 15] [[1], [2], [3]] [[1, 2, 3], [1, 2], [1]]

/-- Expected witness mesh for `frontal_delaunay_2d`: only the triangle
survives the vertex/line filter. -/
def demoMesh2d : Mesh :=
  { points := [[0, 0, 0], [8, 0, 0], [0, 8, 0]]
    blocks := [(CellType.triangle, [[0, 1, 2]])] }

/-- Triangle polygon with 3-component coordinates, a small concrete
shapely `edge_source` for `frontal_delaunay_2d`. -/
def demoPolygon : Polygon :=
  { exterior := ⟨[[0, 0, 0], [1, 0, 0], [0, 1, 0], [0, 0, 0]]⟩
    interiors := [] }

/-- The same triangle polygon with 2-component coordinates, as shapely
produces for planar geometry; unpacking `x, y, z = coord` raises on it. -/
def demoPolygon2c : Polygon :=
  { exterior := ⟨[[0, 0], [1, 0], [0, 1], [0, 0]]⟩
    interiors := [] }

/-! ### Observation helpers over traces -/

/-- Classifier for point-creation events. -/
def Event.isAddPoint : Event → Bool
  | Event.addPoint _ _ _ _ _ => true
  | _ => false

/-- Classifier for line-creation events. -/
def Event.isAddLine : Event → Bool
  | Event.addLine _ _ _ => true
  | _ => false

/-- Classifier for option-setting events. -/
def Event.isSetOption : Event → Bool
  | Event.setOption _ _ => true
  | _ => false

/-- Mesh-size argument of a point-creation event (zero on other events). -/
def Event.sizeArg : Event → ℚ
  | Event.addPoint _ _ _ _ size => size
  | _ => 0

/-- Expected point-creation calls of `delaunay_3d`: the `i`-th input point
(0-based) paired with its target size yields one call with explicit tag
`i + 1`. -/
def expectedPoints3d : List (P3 × ℚ) → Nat → List Event
  | [], _ => []
  | (p, sz) :: rest, i =>
      Event.addPoint ((i : Int) + 1) p.x p.y p.z sz :: expectedPoints3d rest (i + 1)

/-- Expected automatically tagged point-creation calls: consecutive tags
starting at `t`. -/
def expectedPointsAuto : List (ℚ × P3) → Int → List Event
  | [], _ => []
  | (sz, p) :: rest, t =>
      Event.addPoint t p.x p.y p.z sz :: expectedPointsAuto rest (t + 1)

/-- Expected automatically tagged line-creation calls over an edge list:
consecutive tags starting at `t`, each connecting its edge's two endpoint
tags. -/
def expectedLines : List (Int × Int) → Int → List Event
  | [], _ => []
  | (a, b) :: rest, t => Event.addLine t a b :: expectedLines rest (t + 1)

/-- Wrap-around edges of all faces of a surface, in face order, with
0-based point indices already translated to the 1-based point tags. -/
def allFaceEdges (faces : List (List Nat)) : List (Int × Int) :=
  faces.flatMap fun face =>
    (cyclicEdges face).map fun e => ((e.1 : Int) + 1, (e.2 : Int) + 1)

/-- Expected line-creation calls of the PolyData branch of
`frontal_delaunay_2d`: for the `i`-th polyline edge, one call with
explicit tag `i + 1` connecting point tag `lines[i + 1] + 1` to point tag
`lines[i + 2] + 1`. -/
def expectedPolyLines (lines : List Int) : Nat → Nat → List Event
  | 0, _ => []
  | k + 1, i =>
      Event.addLine ((i : Int) + 1) (lines.getD (i + 1) 0 + 1) (lines.getD (i + 2) 0 + 1) ::
        expectedPolyLines lines k (i + 1)

/-- Option-setting calls `delaunay_3d` is expected to make, by whether a
target size was supplied. -/
def opts3dTrace : SizeSpec → List Event
  | none =>
      [Event.setOption OptName.meshAlgorithm 3,
       Event.setOption OptName.meshSizeExtendFromBoundary 0,
       Event.setOption OptName.meshSizeFromPoints 0,
       Event.setOption OptName.meshSizeFromCurvature 0,
       Event.setOption OptName.generalVerbosity 0,
       Event.setOption OptName.algorithmSwitchOnFailure 0,
       Event.setOption OptName.recombinationAlgorithm 0,
       Event.setOption OptName.recombineNodeRepositioning 0]
  | some _ =>
      [Event.setOption OptName.meshAlgorithm3D 1,
       Event.setOption OptName.generalVerbosity 0,
       Event.setOption OptName.algorithmSwitchOnFailure 0,
       Event.setOption OptName.recombinationAlgorithm 0,
       Event.setOption OptName.recombineNodeRepositioning 0]

/-- Option-setting calls `frontal_delaunay_2d` is expected to make, by
whether a target size was supplied. -/
def opts2dTrace : Option α → List Event
  | none =>
      [Event.setOption OptName.meshAlgorithm 3,
       Event.setOption OptName.meshSizeExtendFromBoundary 0,
       Event.setOption OptName.meshSizeFromPoints 0,
       Event.setOption OptName.meshSizeFromCurvature 0,
       Event.setOption OptName.generalVerbosity 0]
  | some _ =>
      [Event.setOption OptName.meshAlgorithm 6,
       Event.setOption OptName.generalVerbosity 0]

/-- The step from `s` to `t` adds no event matched by `p`: the filtered
traces coincide. -/
def NoNew (p : Event → Bool) (s t : GmshState) : Prop :=
  t.trace.filter p = s.trace.filter p

/-- Every point-creation call recorded so far used mesh size `q`. -/
def PtSizes (q : ℚ) (s : GmshState) : Prop :=
  ∀ e ∈ s.trace, e.isAddPoint = true → e.sizeArg = q

/-- A kernel element triple (type code, element tags, element node tags)
whose type code is known to `gmsh_to_pyvista_type` and whose node-tag
array length is a multiple of the type's node count: exactly the triples
on which the element loop of `generate_mesh` cannot raise a `KeyError` or
a reshape `ValueError`. -/
def typeOk (tr : Int × List Int × List Int) : Prop :=
  (gmsh_to_pyvista_type tr.1).isSome = true ∧ numNodesOfCode tr.1 ∣ tr.2.2.length

/-- A `typeOk` triple whose element-tag array also passes the source's
wrapped-difference check: the element loop of `generate_mesh` processes
it without raising. -/
def goodTriple (tr : Int × List Int × List Int) : Prop :=
  typeOk tr ∧ diffAllPos tr.2.1 = true

/-- The `cells` dict entry the element loop produces for one triple: the
mapped cell type paired with the node tags reshaped into per-element rows
and shifted to 0-based indices. -/
def expectedBlock (tr : Int × List Int × List Int) : CellType × List (List Int) :=
  ((gmsh_to_pyvista_type tr.1).getD CellType.vertex,
   (chunkFuel tr.2.2.length (numNodesOfCode tr.1) tr.2.2).map (List.map (· - 1)))

/-- Cell type a triple maps to (defaulting on unknown codes; only applied
under `typeOk`). -/
def tripleType (tr : Int × List Int × List Int) : CellType :=
  (gmsh_to_pyvista_type tr.1).getD CellType.vertex

/-- Session-lifecycle fields (initialized flag and the three cumulative
counters) of two states agree. -/
def SessionEq (s t : GmshState) : Prop :=
  t.initialized = s.initialized ∧ t.initCount = s.initCount ∧
    t.finalizeCount = s.finalizeCount ∧ t.clearCount = s.clearCount

theorem SessionEq.refl (s : GmshState) : SessionEq s s := ⟨rfl, rfl, rfl, rfl⟩

theorem SessionEq.trans {s t u : GmshState} (h1 : SessionEq s t)
    (h2 : SessionEq t u) : SessionEq s u := by
  obtain ⟨a1, b1, c1, d1⟩ := h1
  obtain ⟨a2, b2, c2, d2⟩ := h2
  exact ⟨a2.trans a1, b2.trans b1, c2.trans c1, d2.trans d1⟩

/-! ### Session-field preservation: the geometry-construction primitives
never touch the lifecycle fields. -/

theorem sessionEq_setOpt (n : OptName) (v : Int) (s : GmshState) :
    SessionEq s (setOpt n v s) := ⟨rfl, rfl, rfl, rfl⟩

theorem sessionEq_addPointTagged (x y z sz : ℚ) (tag : Int) (s : GmshState) :
    SessionEq s (addPointTagged x y z sz tag s) := ⟨rfl, rfl, rfl, rfl⟩

theorem sessionEq_addPointAuto (x y z sz : ℚ) (s : GmshState) :
    SessionEq s (addPointAuto x y z sz s).2 := ⟨rfl, rfl, rfl, rfl⟩

theorem sessionEq_addLineTagged (a b tag : Int) (s : GmshState) :
    SessionEq s (addLineTagged a b tag s) := ⟨rfl, rfl, rfl, rfl⟩

theorem sessionEq_addLineAuto (a b : Int) (s : GmshState) :
    SessionEq s (addLineAuto a b s).2 := ⟨rfl, rfl, rfl, rfl⟩

theorem sessionEq_addCurveLoopTagged (c : List Int) (tag : Int) (s : GmshState) :
    SessionEq s (addCurveLoopTagged c tag s) := ⟨rfl, rfl, rfl, rfl⟩

theorem sessionEq_addCurveLoopAuto (c : List Int) (s : GmshState) :
    SessionEq s (addCurveLoopAuto c s).2 := ⟨rfl, rfl, rfl, rfl⟩

theorem sessionEq_addPlaneSurfaceTagged (w : List Int) (tag : Int) (s : GmshState) :
    SessionEq s (addPlaneSurfaceTagged w tag s) := ⟨rfl, rfl, rfl, rfl⟩

theorem sessionEq_addPlaneSurfaceAuto (w : List Int) (s : GmshState) :
    SessionEq s (addPlaneSurfaceAuto w s).2 := ⟨rfl, rfl, rfl, rfl⟩

theorem sessionEq_addSurfaceLoopK (w : List Int) (tag : Int) (s : GmshState) :
    SessionEq s (addSurfaceLoopK w tag s) := ⟨rfl, rfl, rfl, rfl⟩

theorem sessionEq_addVolumeK (w : List Int) (tag : Int) (s : GmshState) :
    SessionEq s (addVolumeK w tag s) := ⟨rfl, rfl, rfl, rfl⟩

theorem sessionEq_removeAllDuplicatesK (s : GmshState) :
    SessionEq s (removeAllDuplicatesK s) := ⟨rfl, rfl, rfl, rfl⟩

theorem sessionEq_synchronizeK (s : GmshState) :
    SessionEq s (synchronizeK s) := ⟨rfl, rfl, rfl, rfl⟩

theorem sessionEq_setRecombineK (d t : Int) (s : GmshState) :
    SessionEq s (setRecombineK d t s) := ⟨rfl, rfl, rfl, rfl⟩

theorem sessionEq_embedK (d : Int) (tags : List Int) (td tt : Int) (s : GmshState) :
    SessionEq s (embedK d tags td tt s) := ⟨rfl, rfl, rfl, rfl⟩

theorem sessionEq_setOptions3d (ts : SizeSpec) (s : GmshState) :
    SessionEq s (setOptions3d ts s) := by
  cases ts <;> simp [SessionEq, setOptions3d, setOpt]

theorem sessionEq_setOptions2d (ts : Option α) (s : GmshState) :
    SessionEq s (setOptions2d ts s) := by
  cases ts <;> simp [SessionEq, setOptions2d, setOpt]

theorem sessionEq_addPoints3d (l : List (P3 × ℚ)) (i : Nat) (s : GmshState) :
    SessionEq s (addPoints3d l i s) := by
  induction l generalizing i s with
  | nil => exact SessionEq.refl s
  | cons hd tl ih =>
      exact (sessionEq_addPointTagged hd.1.x hd.1.y hd.1.z hd.2 _ s).trans
        (ih (i + 1) _)

theorem sessionEq_addLinesAuto (edges : List (Int × Int)) (s : GmshState) :
    SessionEq s (addLinesAuto edges s).2 := by
  induction edges generalizing s with
  | nil => exact SessionEq.refl s
  | cons hd tl ih =>
      simp only [addLinesAuto]
      exact (sessionEq_addLineAuto hd.1 hd.2 s).trans (ih _)

theorem sessionEq_facesLoop3d (faces : List (List Nat)) (i : Nat) (s : GmshState) :
    SessionEq s (facesLoop3d faces i s).2 := by
  induction faces generalizing i s with
  | nil => exact SessionEq.refl s
  | cons hd tl ih =>
      simp only [facesLoop3d]
      rcases h1 : addLinesAuto ((cyclicEdges hd).map fun e =>
        ((e.1 : Int) + 1, (e.2 : Int) + 1)) s with ⟨ct, s1⟩
      simp only [h1]
      have ha := sessionEq_addLinesAuto ((cyclicEdges hd).map fun e =>
        ((e.1 : Int) + 1, (e.2 : Int) + 1)) s
      rw [h1] at ha
      exact ha.trans (((sessionEq_addCurveLoopTagged _ _ _).trans
        (sessionEq_addPlaneSurfaceTagged _ _ _)).trans (ih (i + 1) _))

theorem sessionEq_build3d (es : Surface) (ts : SizeSpec) (s : GmshState) :
    SessionEq s (build3d es ts s) := by
  simp only [build3d]
  rcases h1 : facesLoop3d es.faces 0
    (addPoints3d (es.points.zip (resolveSizes ts es.points.length)) 0 s) with ⟨sl, s2⟩
  simp only [h1]
  have ha := sessionEq_addPoints3d (es.points.zip (resolveSizes ts es.points.length)) 0 s
  have hb := sessionEq_facesLoop3d es.faces 0
    (addPoints3d (es.points.zip (resolveSizes ts es.points.length)) 0 s)
  rw [h1] at hb
  exact ((ha.trans hb).trans
    (((sessionEq_removeAllDuplicatesK _).trans (sessionEq_synchronizeK _)).trans
      ((sessionEq_addSurfaceLoopK _ _ _).trans (sessionEq_addVolumeK _ _ _)))).trans
    (sessionEq_synchronizeK _)

theorem sessionEq_addPoints2d (l : List (ℚ × P3)) (s : GmshState) :
    SessionEq s (addPoints2d l s).2 := by
  induction l generalizing s with
  | nil => exact SessionEq.refl s
  | cons hd tl ih =>
      simp only [addPoints2d]
      exact (sessionEq_addPointAuto hd.2.x hd.2.y hd.2.z hd.1 s).trans (ih _)

theorem sessionEq_linesLoop2d (lines : List Int) (k i : Nat) (s : GmshState) :
    SessionEq s (linesLoop2d lines k i s).2 := by
  induction k generalizing i s with
  | zero => exact SessionEq.refl s
  | succ k ih =>
      simp only [linesLoop2d]
      cases h1 : lines.get? (i + 1) with
      | none => exact SessionEq.refl s
      | some a =>
          cases h2 : lines.get? (i + 2) with
          | none => exact SessionEq.refl s
          | some b =>
              exact (sessionEq_addLineTagged (a + 1) (b + 1) _ s).trans (ih _ _)

theorem sessionEq_buildPolyData (es : PolyData) (sizes : List ℚ) (s : GmshState) :
    SessionEq s (buildPolyData es sizes s).2 := by
  simp only [buildPolyData]
  rcases hp : addPoints2d (sizes.zip es.points) s with ⟨ept, s1⟩
  simp only [hp]
  have hps := sessionEq_addPoints2d (sizes.zip es.points) s
  rw [hp] at hps
  cases h0 : es.lines.get? 0 with
  | none => exact hps
  | some n =>
      rcases h1 : linesLoop2d es.lines (n - 1).toNat 0 s1 with ⟨r, s2⟩
      simp only [h1]
      have hll := sessionEq_linesLoop2d es.lines (n - 1).toNat 0 s1
      rw [h1] at hll
      cases r with
      | error e => exact hps.trans hll
      | ok _ =>
          exact (hps.trans hll).trans ((sessionEq_addCurveLoopTagged
              ((List.range (n - 1).toNat).map fun k => ((k : Int) + 1)) 1 s2).trans
            ((sessionEq_addPlaneSurfaceTagged [1] 1 _).trans
              ((sessionEq_synchronizeK _).trans (sessionEq_embedK 0 ept 2 1 _))))

theorem sessionEq_ringPointsLoop (l : List (ℚ × List ℚ)) (s : GmshState) :
    SessionEq s (ringPointsLoop l s).2 := by
  induction l generalizing s with
  | nil => exact SessionEq.refl s
  | cons hd tl ih =>
      simp only [ringPointsLoop]
      cases unpack3 hd.2 with
      | error e => exact SessionEq.refl s
      | ok xyz =>
          rcases xyz with ⟨x, y, z⟩
          simp only
          rcases h1 : ringPointsLoop tl (addPointAuto x y z hd.1 s).2 with ⟨r, s2⟩
          have h2 := ih (addPointAuto x y z hd.1 s).2
          rw [h1] at h2
          have h3 := (sessionEq_addPointAuto x y z hd.1 s).trans h2
          cases r <;> exact h3

theorem sessionEq_ringsLoop (l : List ((ℚ ⊕ List ℚ) × Ring)) (s : GmshState) :
    SessionEq s (ringsLoop l s).2 := by
  induction l generalizing s with
  | nil => exact SessionEq.refl s
  | cons hd tl ih =>
      simp only [ringsLoop]
      rcases h1 : ringPointsLoop
          ((match hd.1 with
            | Sum.inl q => List.replicate (hd.2.coords.length - 1) q
            | Sum.inr l => l).zip hd.2.coords.dropLast) s with ⟨r, s1⟩
      simp only [h1]
      have hrp := sessionEq_ringPointsLoop
        ((match hd.1 with
          | Sum.inl q => List.replicate (hd.2.coords.length - 1) q
          | Sum.inr l => l).zip hd.2.coords.dropLast) s
      rw [h1] at hrp
      cases r with
      | error e => exact hrp
      | ok tags =>
          rcases hl : addLinesAuto (cyclicEdgesInt tags) s1 with ⟨ctags, s2⟩
          simp only [hl]
          have hla := sessionEq_addLinesAuto (cyclicEdgesInt tags) s1
          rw [hl] at hla
          rcases hc : addCurveLoopAuto ctags s2 with ⟨wt, s3⟩
          simp only [hc]
          have hca := sessionEq_addCurveLoopAuto ctags s2
          rw [hc] at hca
          rcases h2 : ringsLoop tl s3 with ⟨r2, s4⟩
          have h3 := ih s3
          rw [h2] at h3
          have h4 : SessionEq s s4 := ((hrp.trans hla).trans hca).trans h3
          cases r2 <;> simp only [h2] <;> exact h4

theorem sessionEq_buildPolygon (es : Polygon) (rsizes : List (ℚ ⊕ List ℚ))
    (s : GmshState) : SessionEq s (buildPolygon es rsizes s).2 := by
  unfold buildPolygon
  rcases h1 : ringsLoop (rsizes.zip (es.exterior :: es.interiors)) s with ⟨r, s1⟩
  have h2 := sessionEq_ringsLoop (rsizes.zip (es.exterior :: es.interiors)) s
  rw [h1] at h2
  cases r with
  | error e => exact h2
  | ok wireTags =>
      exact (h2.trans (sessionEq_addPlaneSurfaceAuto _ _)).trans (sessionEq_synchronizeK _)

/-! ### The `finally` block of `generate_mesh` -/

/-- State effect of `generate_mesh`: whatever the generation outcome, the
`finally` block runs `clear` then `finalize`, so the clear and finalize
counters each advance by one and the session is closed. -/
theorem generate_mesh_state (dim : Int) (o : GenOutcome) (s : GmshState) :
    (generate_mesh dim o s).2.clearCount = s.clearCount + 1 ∧
    (generate_mesh dim o s).2.finalizeCount = s.finalizeCount + 1 ∧
    (generate_mesh dim o s).2.initialized = false ∧
    (generate_mesh dim o s).2.initCount = s.initCount := by
  simp [generate_mesh, finalizeK, clearK]

/-- C2: every call to `generate_mesh` performs kernel cleanup (`clear` and
`finalize`) on every execution path — for every generation outcome,
including outcomes on which node/element extraction raises — and when the
generation raises, the same exception value is returned to the caller
(the `finally` block neither replaces nor wraps it). -/
theorem generate_mesh_cleanup_and_propagation (dim : Int) (o : GenOutcome)
    (s : GmshState) :
    (generate_mesh dim o s).2.clearCount = s.clearCount + 1 ∧
    (generate_mesh dim o s).2.finalizeCount = s.finalizeCount + 1 ∧
    (generate_mesh dim o s).2.initialized = false ∧
    (∀ e, o = GenOutcome.fail e → (generate_mesh dim o s).1 = Except.error e) := by
  obtain ⟨h1, h2, h3, _⟩ := generate_mesh_state dim o s
  refine ⟨h1, h2, h3, ?_⟩
  intro e he
  subst he
  rfl

/-- Witness for C2 at a concrete failing generation: the session of a
fresh state is cleaned up and the exception comes back unchanged. -/
theorem generate_mesh_cleanup_and_propagation_witness :
    (generate_mesh 2 (GenOutcome.fail (Err.gmshError 3)) GmshState.fresh).2.clearCount = 1 ∧
    (generate_mesh 2 (GenOutcome.fail (Err.gmshError 3)) GmshState.fresh).2.finalizeCount = 1 ∧
    (generate_mesh 2 (GenOutcome.fail (Err.gmshError 3)) GmshState.fresh).2.initialized = false ∧
    (generate_mesh 2 (GenOutcome.fail (Err.gmshError 3)) GmshState.fresh).1 =
      Except.error (Err.gmshError 3) := by
  obtain ⟨h1, h2, h3, h4⟩ := generate_mesh_cleanup_and_propagation 2
    (GenOutcome.fail (Err.gmshError 3)) GmshState.fresh
  exact ⟨h1, h2, h3, h4 (Err.gmshError 3) rfl⟩

/-! ### Index-based cell removal equals filtering -/

theorem mem_nonMatchingIndices_ge (keep : CellType × List Int → Bool) :
    ∀ (l : List (CellType × List Int)) (i j : Nat),
      j ∈ nonMatchingIndices keep l i → i ≤ j := by
  intro l
  induction l with
  | nil => intro i j h; simp [nonMatchingIndices] at h
  | cons c cs ih =>
      intro i j h
      simp only [nonMatchingIndices] at h
      by_cases hk : keep c
      · rw [if_pos hk] at h
        exact Nat.le_of_succ_le (ih (i + 1) j h)
      · rw [if_neg hk] at h
        rcases List.mem_cons.mp h with h | h
        · exact h ▸ Nat.le_refl i
        · exact Nat.le_of_succ_le (ih (i + 1) j h)

theorem removeCellsAux_congr :
    ∀ (l : List (CellType × List Int)) (i : Nat) (ind₁ ind₂ : List Nat),
      (∀ j, i ≤ j → (j ∈ ind₁ ↔ j ∈ ind₂)) →
      removeCellsAux ind₁ l i = removeCellsAux ind₂ l i := by
  intro l
  induction l with
  | nil => intro i ind₁ ind₂ _; rfl
  | cons c cs ih =>
      intro i ind₁ ind₂ h
      simp only [removeCellsAux]
      have hi := h i (Nat.le_refl i)
      have hrest := ih (i + 1) ind₁ ind₂ fun j hj => h j (Nat.le_of_succ_le hj)
      by_cases hmem : i ∈ ind₁
      · rw [if_pos hmem, if_pos (hi.mp hmem), hrest]
      · rw [if_neg hmem, if_neg (fun hc => hmem (hi.mpr hc)), hrest]

theorem removeCellsAux_nonMatching (keep : CellType × List Int → Bool) :
    ∀ (l : List (CellType × List Int)) (i : Nat),
      removeCellsAux (nonMatchingIndices keep l i) l i = l.filter keep := by
  intro l
  induction l with
  | nil => intro i; rfl
  | cons c cs ih =>
      intro i
      simp only [nonMatchingIndices, removeCellsAux, List.filter]
      by_cases hk : keep c
      · rw [if_pos hk, hk]
        have hni : i ∉ nonMatchingIndices keep cs (i + 1) := fun h =>
          Nat.not_succ_le_self i (mem_nonMatchingIndices_ge keep cs (i + 1) i h)
        simp only [removeCellsAux, if_neg hni]
        rw [ih (i + 1)]
      · rw [if_neg hk, Bool.eq_false_iff.mpr hk]
        simp only [removeCellsAux, if_pos (List.mem_cons_self i _)]
        rw [removeCellsAux_congr cs (i + 1) (i :: nonMatchingIndices keep cs (i + 1))
          (nonMatchingIndices keep cs (i + 1)) fun j hj => by
            constructor
            · intro hm
              rcases List.mem_cons.mp hm with hm | hm
              · omega
              · exact hm
            · exact fun hm => List.mem_cons_of_mem i hm]
        exact ih (i + 1)

theorem cellList_map_singleton (l : List (CellType × List Int)) :
    ((l.map fun c => (c.1, [c.2])).flatMap fun b => b.2.map fun row => (b.1, row)) = l := by
  induction l with
  | nil => rfl
  | cons c cs ih => simp [ih]

theorem cellList_removeCells (m : Mesh) (ind : List Nat) :
    (m.removeCells ind).cellList = removeCellsAux ind m.cellList 0 := by
  unfold Mesh.removeCells Mesh.cellList
  exact cellList_map_singleton _

/-- Cells surviving the post-filter of `delaunay_3d` are exactly the
tetrahedra, in order. -/
theorem removeCells_keepTetra (m : Mesh) :
    (m.removeCells (nonMatchingIndices keepTetra m.cellList 0)).cellList =
      m.cellList.filter keepTetra := by
  rw [cellList_removeCells]
  exact removeCellsAux_nonMatching keepTetra m.cellList 0

/-- Cells surviving the post-filter of `frontal_delaunay_2d` are exactly
the non-vertex non-line cells, in order. -/
theorem removeCells_keep2d (m : Mesh) :
    (filter2d m).cellList = m.cellList.filter keep2d := by
  unfold filter2d
  rw [cellList_removeCells]
  exact removeCellsAux_nonMatching keep2d m.cellList 0

/-- C3: every successful call of `delaunay_3d` returns a mesh all of whose
cells are tetrahedra — every non-tetrahedral cell the kernel produced is
discarded before the mesh is returned. -/
theorem delaunay_3d_all_tetra (es : Surface) (ts : SizeSpec) (o : GenOutcome)
    (s0 : GmshState) (m : Mesh) (sf : GmshState)
    (h : delaunay_3d es ts o s0 = (Except.ok m, sf)) :
    ∀ c ∈ m.cellList, c.1 = CellType.tetra := by
  simp only [delaunay_3d] at h
  split at h
  · simp at h
  · split at h
    · simp at h
    · simp only [Prod.mk.injEq, Except.ok.injEq] at h
      obtain ⟨hm, _⟩ := h
      intro c hc
      rw [← hm, removeCells_keepTetra] at hc
      have := (List.mem_filter.mp hc).2
      simpa [keepTetra] using this

/-- Witness for C3: concrete successful run whose kernel output contains a
stray triangle; the returned mesh is the tetrahedron alone. -/
theorem delaunay_3d_all_tetra_witness :
    (delaunay_3d demoSurface (some (Sum.inl 1)) demoOutcome3d GmshState.fresh).1 =
      Except.ok demoMesh3d ∧
    ∀ c ∈ demoMesh3d.cellList, c.1 = CellType.tetra := by
  constructor
  · rfl
  · exact delaunay_3d_all_tetra demoSurface (some (Sum.inl 1)) demoOutcome3d
      GmshState.fresh demoMesh3d
      (delaunay_3d demoSurface (some (Sum.inl 1)) demoOutcome3d GmshState.fresh).2 rfl

/-- C4: every successful call of `frontal_delaunay_2d`, on either kind of
edge source, returns a mesh containing no vertex-type and no line-type
cells: the degenerate vertex/line cells produced by the kernel are removed
before the mesh is returned. -/
theorem frontal_delaunay_2d_no_vertex_line :
    (∀ (es : PolyData) (ts : SizeSpec) (rec : Bool) (o : GenOutcome)
        (s0 : GmshState) (m : Mesh) (sf : GmshState),
      frontal_delaunay_2d_polydata es ts rec o s0 = (Except.ok m, sf) →
      ∀ c ∈ m.cellList, c.1 ≠ CellType.vertex ∧ c.1 ≠ CellType.line) ∧
    (∀ (es : Polygon) (ts : RingSizeSpec) (rec : Bool) (o : GenOutcome)
        (s0 : GmshState) (m : Mesh) (sf : GmshState),
      frontal_delaunay_2d_polygon es ts rec o s0 = (Except.ok m, sf) →
      ∀ c ∈ m.cellList, c.1 ≠ CellType.vertex ∧ c.1 ≠ CellType.line) := by
  constructor
  · intro es ts rec o s0 m sf h
    simp only [frontal_delaunay_2d_polydata] at h
    split at h
    · simp at h
    · split at h
      · simp at h
      · split at h
        · simp at h
        · simp only [Prod.mk.injEq, Except.ok.injEq] at h
          obtain ⟨hm, _⟩ := h
          intro c hc
          rw [← hm, removeCells_keep2d] at hc
          have := (List.mem_filter.mp hc).2
          simp only [keep2d] at this
          constructor
          · intro hv; rw [hv] at this; simp at this
          · intro hv; rw [hv] at this; simp at this
  · intro es ts rec o s0 m sf h
    simp only [frontal_delaunay_2d_polygon] at h
    split at h
    · simp at h
    · split at h
      · simp at h
      · split at h
        · simp at h
        · simp only [Prod.mk.injEq, Except.ok.injEq] at h
          obtain ⟨hm, _⟩ := h
          intro c hc
          rw [← hm, removeCells_keep2d] at hc
          have := (List.mem_filter.mp hc).2
          simp only [keep2d] at this
          constructor
          · intro hv; rw [hv] at this; simp at this
          · intro hv; rw [hv] at this; simp at this

/-! ### Reshape and element-loop lemmas for `generate_mesh` -/

theorem chunkFuel_flatten {α : Type} :
    ∀ (fuel n : Nat) (l : List α), 0 < n → l.length ≤ fuel →
      (chunkFuel fuel n l).flatten = l := by
  intro fuel
  induction fuel with
  | zero =>
      intro n l _ hl
      have : l = [] := List.eq_nil_of_length_eq_zero (Nat.le_zero.mp hl)
      subst this
      rfl
  | succ fuel ih =>
      intro n l hn hl
      cases l with
      | nil => rfl
      | cons x xs =>
          simp only [chunkFuel, List.flatten_cons]
          rw [ih n ((x :: xs).drop n) hn (by
            simp only [List.length_drop, List.length_cons]
            simp only [List.length_cons] at hl
            omega)]
          exact List.take_append_drop n (x :: xs)

theorem chunkFuel_mem_length {α : Type} :
    ∀ (fuel n : Nat) (l : List α), 0 < n → l.length ≤ fuel → n ∣ l.length →
      ∀ r ∈ chunkFuel fuel n l, r.length = n := by
  intro fuel
  induction fuel with
  | zero => intro n l _ _ _ r hr; simp [chunkFuel] at hr
  | succ fuel ih =>
      intro n l hn hl hdvd r hr
      cases l with
      | nil => simp [chunkFuel] at hr
      | cons x xs =>
          simp only [chunkFuel] at hr
          have hge : n ≤ (x :: xs).length := by
            rcases hdvd with ⟨k, hk⟩
            rcases Nat.eq_zero_or_pos k with hk0 | hk0
            · simp [hk0] at hk
            · calc n = n * 1 := (Nat.mul_one n).symm
                _ ≤ n * k := Nat.mul_le_mul_left n hk0
                _ = (x :: xs).length := hk.symm
          rcases List.mem_cons.mp hr with hr | hr
          · rw [hr, List.length_take]
            exact Nat.min_eq_left hge
          · refine ih n ((x :: xs).drop n) hn ?_ ?_ r hr
            · simp only [List.length_drop, List.length_cons]
              simp only [List.length_cons] at hl
              omega
            · simp only [List.length_drop]
              exact (Nat.dvd_sub' hdvd (Nat.dvd_refl n))

theorem reshapeRows_of_dvd {α : Type} {n : Nat} {l : List α} (hn : n ≠ 0)
    (hdvd : n ∣ l.length) :
    reshapeRows n l = some (chunkFuel l.length n l) := by
  unfold reshapeRows
  rw [if_neg hn, if_pos hdvd]

theorem numNodesOfCode_ne_zero (t : Int)
    (h : (gmsh_to_pyvista_type t).isSome = true) : numNodesOfCode t ≠ 0 := by
  unfold gmsh_to_pyvista_type at h
  unfold numNodesOfCode
  split_ifs at h <;> simp_all

theorem insertCell_notMem (k : CellType) (v : List (List Int)) :
    ∀ d : List (CellType × List (List Int)), k ∉ d.map Prod.fst →
      insertCell k v d = d ++ [(k, v)] := by
  intro d
  induction d with
  | nil => intro _; rfl
  | cons c cs ih =>
      intro h
      simp only [List.map_cons, List.mem_cons] at h
      push_neg at h
      simp only [insertCell]
      rw [if_neg fun hc => h.1 hc.symm, ih h.2]
      rfl

theorem buildCells_ok :
    ∀ (triples : List (Int × List Int × List Int))
      (d : List (CellType × List (List Int))),
      (∀ tr ∈ triples, goodTriple tr) →
      (triples.map tripleType).Nodup →
      (∀ tr ∈ triples, tripleType tr ∉ d.map Prod.fst) →
      buildCells triples d = Except.ok (d ++ triples.map expectedBlock) := by
  intro triples
  induction triples with
  | nil => intro d _ _ _; simp [buildCells]
  | cons tr rest ih =>
      intro d hgood hnodup hdisj
      obtain ⟨⟨hsome, hdvd⟩, hinc⟩ := hgood tr (List.mem_cons_self _ _)
      obtain ⟨ct, hct⟩ := Option.isSome_iff_exists.mp hsome
      have htt : tripleType tr = ct := by simp [tripleType, hct]
      have hnc := List.nodup_cons.mp (show (tripleType tr :: rest.map tripleType).Nodup by
        rw [← List.map_cons]; exact hnodup)
      simp only [buildCells, if_pos hinc, hct,
        reshapeRows_of_dvd (numNodesOfCode_ne_zero tr.1 hsome) hdvd]
      rw [insertCell_notMem ct _ d (htt ▸ hdisj tr (List.mem_cons_self _ _))]
      rw [ih (d ++ [(ct, (chunkFuel tr.2.2.length (numNodesOfCode tr.1) tr.2.2).map
          (List.map (· - 1)))])
        (fun x hx => hgood x (List.mem_cons_of_mem _ hx))
        hnc.2
        (fun x hx => by
          simp only [List.map_append, List.map_cons, List.map_nil, List.mem_append,
            List.mem_singleton]
          rintro (hmem | hmem)
          · exact hdisj x (List.mem_cons_of_mem _ hx) hmem
          · refine hnc.1 ?_
            have := List.mem_map_of_mem tripleType hx
            rw [hmem, ← htt] at this
            exact this)]
      have heb : expectedBlock tr = (ct, (chunkFuel tr.2.2.length (numNodesOfCode tr.1)
          tr.2.2).map (List.map (· - 1))) := by
        simp [expectedBlock, hct]
      rw [List.map_cons, heb, List.append_assoc]
      rfl

theorem buildCells_assert :
    ∀ (triples : List (Int × List Int × List Int))
      (d : List (CellType × List (List Int))),
      (∀ tr ∈ triples, typeOk tr) →
      (∃ tr ∈ triples, diffAllPos tr.2.1 = false) →
      buildCells triples d = Except.error Err.assertionError := by
  intro triples
  induction triples with
  | nil => intro d _ hex; simp at hex
  | cons tr rest ih =>
      intro d hok hex
      by_cases hinc : diffAllPos tr.2.1 = true
      · obtain ⟨⟨hsome, hdvd⟩⟩ := And.intro (hok tr (List.mem_cons_self _ _)) trivial
        obtain ⟨ct, hct⟩ := Option.isSome_iff_exists.mp hsome
        simp only [buildCells, if_pos hinc, hct,
          reshapeRows_of_dvd (numNodesOfCode_ne_zero tr.1 hsome) hdvd]
        refine ih _ (fun x hx => hok x (List.mem_cons_of_mem _ hx)) ?_
        obtain ⟨w, hw, hwf⟩ := hex
        rcases List.mem_cons.mp hw with hw | hw
        · rw [hw] at hwf; rw [hwf] at hinc; exact absurd hinc (by simp)
        · exact ⟨w, hw, hwf⟩
      · simp only [buildCells, if_neg hinc]

/-- Semantics of the source's tag assert on actual kernel arrays: for
uint64-ranged values, `(np.diff(tags) > 0).all()` passes exactly when no
two adjacent tags are equal — the wrapped difference of a decreasing but
unequal adjacent pair is still positive, so the assert never fires on
merely-decreasing tags. -/
theorem diffAllPos_eq_noAdjacentEqual :
    ∀ l : List Int, (∀ x ∈ l, 0 ≤ x ∧ x < 2 ^ 64) →
      diffAllPos l = noAdjacentEqual l := by
  intro l
  induction l with
  | nil => intro _; rfl
  | cons a tl ih =>
      intro h
      cases tl with
      | nil => rfl
      | cons b rest =>
          obtain ⟨ha1, ha2⟩ := h a (List.mem_cons_self _ _)
          obtain ⟨hb1, hb2⟩ := h b (List.mem_cons_of_mem _ (List.mem_cons_self _ _))
          have htl := ih (fun x hx => h x (List.mem_cons_of_mem _ hx))
          simp only [diffAllPos, noAdjacentEqual]
          rw [htl]
          congr 1
          refine decide_eq_decide.mpr ?_
          omega

/-- C10 counterexample: the claim fails in both directions.  With
node-tag array `[2, 1]` — not strictly increasing — the numpy check
passes (the uint64 difference wraps to `2 ^ 64 - 1 > 0`), no
`AssertionError` is raised, and `generate_mesh` returns a mesh; and with
strictly increasing tag arrays but an element type code (8) absent from
`gmsh_to_pyvista_type`, `generate_mesh` raises `KeyError` instead of
returning a mesh. -/
theorem generate_mesh_tag_assert_cex :
    ¬ ((2 : Int) < 1) ∧
    (generate_mesh 2 (GenOutcome.success [2, 1] [0, 0, 0, 1, 0, 0] [15] [[1]] [[1]])
      GmshState.fresh).1 =
      Except.ok { points := [[0, 0, 0], [1, 0, 0]]
                  blocks := [(CellType.vertex, [[0]])] } ∧
    diffAllPos [1] = true ∧
    (generate_mesh 2 (GenOutcome.success [1] [0, 0, 0] [8] [[1]] [[1]])
      GmshState.fresh).1 = Except.error (Err.keyError 8) :=
  ⟨by decide, rfl, rfl, rfl⟩

/-- C10 (amended): `generate_mesh` always runs the cleanup block; its
asserts embed the numpy uint64 check `(np.diff(tags) > 0).all()`, which
on uint64-ranged arrays passes exactly when no two adjacent tags are
equal (wrapped differences of decreasing-but-unequal pairs stay
positive); it raises `AssertionError` when the node-tag array fails that
check, and likewise when (all element type codes being known with
reshape-compatible node-tag lengths) some per-type element-tag array
fails it; and when additionally every tag array passes the check — in
particular whenever the arrays are strictly increasing — the mapped cell
types are pairwise distinct and the coordinate array length is a
multiple of three, it returns a mesh whose points are the coordinates in
groups of three and whose per-type connectivity is exactly that type's
element node tags minus one. -/
theorem generate_mesh_assert_and_minus_one (dim : Int) (nt : List Int)
    (coord : List ℚ) (ets : List Int) (etags entags : List (List Int))
    (s : GmshState) :
    ((generate_mesh dim (GenOutcome.success nt coord ets etags entags) s).2.finalizeCount =
        s.finalizeCount + 1 ∧
      (generate_mesh dim (GenOutcome.success nt coord ets etags entags) s).2.clearCount =
        s.clearCount + 1) ∧
    (∀ l : List Int, (∀ x ∈ l, 0 ≤ x ∧ x < 2 ^ 64) →
      diffAllPos l = noAdjacentEqual l) ∧
    (diffAllPos nt = false →
      (generate_mesh dim (GenOutcome.success nt coord ets etags entags) s).1 =
        Except.error Err.assertionError) ∧
    (diffAllPos nt = true → (3 : Nat) ∣ coord.length →
      (∀ tr ∈ zip3 ets etags entags, typeOk tr) →
      (∃ tr ∈ zip3 ets etags entags, diffAllPos tr.2.1 = false) →
      (generate_mesh dim (GenOutcome.success nt coord ets etags entags) s).1 =
        Except.error Err.assertionError) ∧
    (diffAllPos nt = true → (3 : Nat) ∣ coord.length →
      (∀ tr ∈ zip3 ets etags entags, goodTriple tr) →
      ((zip3 ets etags entags).map tripleType).Nodup →
      ∃ m, (generate_mesh dim (GenOutcome.success nt coord ets etags entags) s).1 =
          Except.ok m ∧
        m.points.flatten = coord ∧ (∀ p ∈ m.points, p.length = 3) ∧
        List.Forall₂ (fun (tr : Int × List Int × List Int)
            (bl : CellType × List (List Int)) =>
          gmsh_to_pyvista_type tr.1 = some bl.1 ∧
            bl.2.flatten = tr.2.2.map (· - 1) ∧
            ∀ row ∈ bl.2, row.length = numNodesOfCode tr.1)
          (zip3 ets etags entags) m.blocks) := by
  have hproj : (generate_mesh dim (GenOutcome.success nt coord ets etags entags) s).1 =
      extractMesh nt coord ets etags entags := rfl
  obtain ⟨hc, hf, _, _⟩ := generate_mesh_state dim
    (GenOutcome.success nt coord ets etags entags) s
  refine ⟨⟨hf, hc⟩, diffAllPos_eq_noAdjacentEqual, ?_, ?_, ?_⟩
  · intro hnt
    rw [hproj]
    unfold extractMesh
    rw [if_neg (by simp [hnt])]
  · intro hnt hdvd hok hex
    rw [hproj]
    unfold extractMesh
    rw [if_pos hnt, reshapeRows_of_dvd (by norm_num) hdvd,
      buildCells_assert (zip3 ets etags entags) [] hok hex]
    rfl
  · intro hnt hdvd hgood hnodup
    rw [hproj]
    unfold extractMesh
    rw [if_pos hnt, reshapeRows_of_dvd (by norm_num) hdvd]
    rw [buildCells_ok (zip3 ets etags entags) [] hgood hnodup (by simp)]
    refine ⟨{ points := chunkFuel coord.length 3 coord
              blocks := (zip3 ets etags entags).map expectedBlock }, rfl, ?_, ?_, ?_⟩
    · exact chunkFuel_flatten coord.length 3 coord (by norm_num) (Nat.le_refl _)
    · exact fun p hp => chunkFuel_mem_length coord.length 3 coord (by norm_num)
        (Nat.le_refl _) hdvd p hp
    · rw [List.forall₂_map_right_iff]
      rw [List.forall₂_same]
      intro tr htr
      obtain ⟨⟨hsome, hdvd'⟩, _⟩ := hgood tr htr
      obtain ⟨ct, hct⟩ := Option.isSome_iff_exists.mp hsome
      have hn0 : 0 < numNodesOfCode tr.1 :=
        Nat.pos_of_ne_zero (numNodesOfCode_ne_zero tr.1 hsome)
      refine ⟨by simp [expectedBlock, hct], ?_, ?_⟩
      · simp only [expectedBlock]
        rw [← List.map_flatten]
        rw [chunkFuel_flatten tr.2.2.length (numNodesOfCode tr.1) tr.2.2 hn0
          (Nat.le_refl _)]
      · intro row hrow
        simp only [expectedBlock, List.mem_map] at hrow
        obtain ⟨r, hr, hrw⟩ := hrow
        rw [← hrw, List.length_map]
        exact chunkFuel_mem_length tr.2.2.length (numNodesOfCode tr.1) tr.2.2 hn0
          (Nat.le_refl _) hdvd' r hr

/-- Witness for C10 (amended) at a concrete well-formed kernel output of
one triangle. -/
theorem generate_mesh_assert_and_minus_one_witness :
    diffAllPos [1, 2, 3] = true ∧
    (∃ m, (generate_mesh 2 (GenOutcome.success [1, 2, 3]
          [0, 0, 0, 1, 0, 0, 0, 1, 0] [2] [[1]] [[1, 2, 3]]) GmshState.fresh).1 =
        Except.ok m ∧
      m.points.flatten = [0, 0, 0, 1, 0, 0, 0, 1, 0] ∧
      (∀ p ∈ m.points, p.length = 3) ∧
      List.Forall₂ (fun (tr : Int × List Int × List Int)
          (bl : CellType × List (List Int)) =>
        gmsh_to_pyvista_type tr.1 = some bl.1 ∧
          bl.2.flatten = tr.2.2.map (· - 1) ∧
          ∀ row ∈ bl.2, row.length = numNodesOfCode tr.1)
        (zip3 [2] [[1]] [[1, 2, 3]]) m.blocks) := by
  refine ⟨rfl, ?_⟩
  refine (generate_mesh_assert_and_minus_one 2 [1, 2, 3]
    [0, 0, 0, 1, 0, 0, 0, 1, 0] [2] [[1]] [[1, 2, 3]] GmshState.fresh).2.2.2.2
    rfl (by decide) ?_ (by simp [zip3])
  intro tr htr
  simp only [zip3, List.mem_singleton] at htr
  subst htr
  exact ⟨⟨rfl, by decide⟩, rfl⟩

/-! ### Session pairing of the wrapper functions -/

/-- C1 counterexample: `frontal_delaunay_2d` on a shapely polygon whose
coordinates have two components (the shapely default for planar geometry)
raises `ValueError` while unpacking `x, y, z = coord` after
`gmsh.initialize()` but before `generate_mesh` — the call exits with the
session still open, zero `finalize` calls against one `initialize` call,
and a second invocation on the resulting state then calls `initialize` on
the still-open session, which the kernel rejects. -/
theorem session_leak_cex :
    (frontal_delaunay_2d_polygon demoPolygon2c none false
        (GenOutcome.fail (Err.gmshError 7)) GmshState.fresh).1 =
      Except.error Err.valueError ∧
    (frontal_delaunay_2d_polygon demoPolygon2c none false
        (GenOutcome.fail (Err.gmshError 7)) GmshState.fresh).2.initCount = 1 ∧
    (frontal_delaunay_2d_polygon demoPolygon2c none false
        (GenOutcome.fail (Err.gmshError 7)) GmshState.fresh).2.finalizeCount = 0 ∧
    (frontal_delaunay_2d_polygon demoPolygon2c none false
        (GenOutcome.fail (Err.gmshError 7)) GmshState.fresh).2.initialized = true ∧
    (initializeK (frontal_delaunay_2d_polygon demoPolygon2c none false
        (GenOutcome.fail (Err.gmshError 7)) GmshState.fresh).2).1 =
      Except.error (Err.gmshError 1) :=
  ⟨rfl, rfl, rfl, rfl, rfl⟩

/-- C1 (amended): on runs that reach `generate_mesh` the initialize call
is paired with exactly one finalize call on every exit path, including
failing generation; `delaunay_3d` always reaches it, while for the two
`frontal_delaunay_2d` branches an exception raised during geometry
construction (between `initialize` and `generate_mesh`) propagates with
the session left open and no finalize call — a leaked session. -/
theorem session_pairing_amended :
    (∀ (es : Surface) (ts : SizeSpec) (o : GenOutcome) (s0 : GmshState),
      s0.initialized = false →
      (delaunay_3d es ts o s0).2.initCount = s0.initCount + 1 ∧
      (delaunay_3d es ts o s0).2.finalizeCount = s0.finalizeCount + 1 ∧
      (delaunay_3d es ts o s0).2.initialized = false) ∧
    (∀ (es : PolyData) (ts : SizeSpec) (rec : Bool) (o : GenOutcome)
        (s0 : GmshState) (r : Except Err Unit) (sB : GmshState),
      s0.initialized = false →
      buildPolyData es (resolveSizes ts es.points.length)
        (setOptions2d ts (initializeK s0).2) = (r, sB) →
      ((∀ u, r = Except.ok u →
        (frontal_delaunay_2d_polydata es ts rec o s0).2.initCount = s0.initCount + 1 ∧
        (frontal_delaunay_2d_polydata es ts rec o s0).2.finalizeCount =
          s0.finalizeCount + 1 ∧
        (frontal_delaunay_2d_polydata es ts rec o s0).2.initialized = false) ∧
       (∀ e, r = Except.error e →
        (frontal_delaunay_2d_polydata es ts rec o s0).1 = Except.error e ∧
        (frontal_delaunay_2d_polydata es ts rec o s0).2.initCount = s0.initCount + 1 ∧
        (frontal_delaunay_2d_polydata es ts rec o s0).2.finalizeCount = s0.finalizeCount ∧
        (frontal_delaunay_2d_polydata es ts rec o s0).2.initialized = true))) ∧
    (∀ (es : Polygon) (ts : RingSizeSpec) (rec : Bool) (o : GenOutcome)
        (s0 : GmshState) (r : Except Err Unit) (sB : GmshState),
      s0.initialized = false →
      buildPolygon es (resolveRingSizes ts (es.interiors.length + 1))
        (setOptions2d ts (initializeK s0).2) = (r, sB) →
      ((∀ u, r = Except.ok u →
        (frontal_delaunay_2d_polygon es ts rec o s0).2.initCount = s0.initCount + 1 ∧
        (frontal_delaunay_2d_polygon es ts rec o s0).2.finalizeCount =
          s0.finalizeCount + 1 ∧
        (frontal_delaunay_2d_polygon es ts rec o s0).2.initialized = false) ∧
       (∀ e, r = Except.error e →
        (frontal_delaunay_2d_polygon es ts rec o s0).1 = Except.error e ∧
        (frontal_delaunay_2d_polygon es ts rec o s0).2.initCount = s0.initCount + 1 ∧
        (frontal_delaunay_2d_polygon es ts rec o s0).2.finalizeCount = s0.finalizeCount ∧
        (frontal_delaunay_2d_polygon es ts rec o s0).2.initialized = true))) := by
  refine ⟨?_, ?_, ?_⟩
  · intro es ts o s0 h0
    have hinitEq : initializeK s0 = (Except.ok (), { s0 with
        initialized := true, initCount := s0.initCount + 1, nextPointTag := 1,
        nextLineTag := 1, nextCurveLoopTag := 1, nextSurfaceTag := 1,
        trace := [Event.init] }) := by
      unfold initializeK
      rw [if_neg (by simp [h0])]
      rfl
    simp only [delaunay_3d, hinitEq]
    rcases hg : generate_mesh 3 o (build3d es ts (setOptions3d ts { s0 with
        initialized := true, initCount := s0.initCount + 1, nextPointTag := 1,
        nextLineTag := 1, nextCurveLoopTag := 1, nextSurfaceTag := 1,
        trace := [Event.init] })) with ⟨rg, sg⟩
    have hses := (sessionEq_setOptions3d ts ({ s0 with
        initialized := true, initCount := s0.initCount + 1, nextPointTag := 1,
        nextLineTag := 1, nextCurveLoopTag := 1, nextSurfaceTag := 1,
        trace := [Event.init] } : GmshState)).trans (sessionEq_build3d es ts _)
    obtain ⟨hcl, hfin, hini, hic⟩ := generate_mesh_state 3 o (build3d es ts
      (setOptions3d ts { s0 with
        initialized := true, initCount := s0.initCount + 1, nextPointTag := 1,
        nextLineTag := 1, nextCurveLoopTag := 1, nextSurfaceTag := 1,
        trace := [Event.init] }))
    rw [hg] at hfin hini hic
    obtain ⟨_, hic2, hfc2, _⟩ := hses
    cases rg <;> simp only [hg] <;>
      exact ⟨by rw [hic, hic2], by rw [hfin, hfc2], hini⟩
  · intro es ts rec o s0 r sB h0 hB
    have hinitEq : initializeK s0 = (Except.ok (), { s0 with
        initialized := true, initCount := s0.initCount + 1, nextPointTag := 1,
        nextLineTag := 1, nextCurveLoopTag := 1, nextSurfaceTag := 1,
        trace := [Event.init] }) := by
      unfold initializeK
      rw [if_neg (by simp [h0])]
      rfl
    rw [hinitEq] at hB
    have hses := (sessionEq_setOptions2d ts ({ s0 with
        initialized := true, initCount := s0.initCount + 1, nextPointTag := 1,
        nextLineTag := 1, nextCurveLoopTag := 1, nextSurfaceTag := 1,
        trace := [Event.init] } : GmshState)).trans (sessionEq_buildPolyData es
      (resolveSizes ts es.points.length) _)
    rw [hB] at hses
    obtain ⟨hbini, hbic, hbfc, _⟩ := hses
    constructor
    · intro u hu
      subst hu
      simp only [frontal_delaunay_2d_polydata, hinitEq, hB]
      rcases hg : generate_mesh 2 o (if rec then setRecombineK 2 1 sB else sB)
        with ⟨rg, sg⟩
      have hrc : SessionEq sB (if rec then setRecombineK 2 1 sB else sB) := by
        cases rec
        · simpa using SessionEq.refl sB
        · simpa using sessionEq_setRecombineK 2 1 sB
      obtain ⟨_, hic2, hfc2, _⟩ := hrc
      obtain ⟨hcl, hfin, hini, hic⟩ := generate_mesh_state 2 o
        (if rec then setRecombineK 2 1 sB else sB)
      rw [hg] at hfin hini hic
      cases rg <;> simp only [hg] <;>
        exact ⟨by rw [hic, hic2, hbic], by rw [hfin, hfc2, hbfc], hini⟩
    · intro e he
      subst he
      simp only [frontal_delaunay_2d_polydata, hinitEq, hB]
      exact ⟨by trivial, hbic, hbfc, by rw [hbini]⟩
  · intro es ts rec o s0 r sB h0 hB
    have hinitEq : initializeK s0 = (Except.ok (), { s0 with
        initialized := true, initCount := s0.initCount + 1, nextPointTag := 1,
        nextLineTag := 1, nextCurveLoopTag := 1, nextSurfaceTag := 1,
        trace := [Event.init] }) := by
      unfold initializeK
      rw [if_neg (by simp [h0])]
      rfl
    rw [hinitEq] at hB
    have hses := (sessionEq_setOptions2d ts ({ s0 with
        initialized := true, initCount := s0.initCount + 1, nextPointTag := 1,
        nextLineTag := 1, nextCurveLoopTag := 1, nextSurfaceTag := 1,
        trace := [Event.init] } : GmshState)).trans (sessionEq_buildPolygon es
      (resolveRingSizes ts (es.interiors.length + 1)) _)
    rw [hB] at hses
    obtain ⟨hbini, hbic, hbfc, _⟩ := hses
    constructor
    · intro u hu
      subst hu
      simp only [frontal_delaunay_2d_polygon, hinitEq, hB]
      rcases hg : generate_mesh 2 o (if rec then setRecombineK 2 1 sB else sB)
        with ⟨rg, sg⟩
      have hrc : SessionEq sB (if rec then setRecombineK 2 1 sB else sB) := by
        cases rec
        · simpa using SessionEq.refl sB
        · simpa using sessionEq_setRecombineK 2 1 sB
      obtain ⟨_, hic2, hfc2, _⟩ := hrc
      obtain ⟨hcl, hfin, hini, hic⟩ := generate_mesh_state 2 o
        (if rec then setRecombineK 2 1 sB else sB)
      rw [hg] at hfin hini hic
      cases rg <;> simp only [hg] <;>
        exact ⟨by rw [hic, hic2, hbic], by rw [hfin, hfc2, hbfc], hini⟩
    · intro e he
      subst he
      simp only [frontal_delaunay_2d_polygon, hinitEq, hB]
      exact ⟨by trivial, hbic, hbfc, by rw [hbini]⟩

/-- Witness for C1 (amended): concrete runs of all three wrappers — a
3D run (always paired), a well-formed PolyData run (construction
succeeds, paired) and the 2-component-coordinate polygon run
(construction raises, session leaked). -/
theorem session_pairing_amended_witness :
    ((delaunay_3d demoSurface none demoOutcome3d GmshState.fresh).2.initCount = 1 ∧
      (delaunay_3d demoSurface none demoOutcome3d GmshState.fresh).2.finalizeCount = 1 ∧
      (delaunay_3d demoSurface none demoOutcome3d GmshState.fresh).2.initialized = false) ∧
    ((frontal_delaunay_2d_polydata demoPolyData none false demoOutcome2d
        GmshState.fresh).2.initCount = 1 ∧
      (frontal_delaunay_2d_polydata demoPolyData none false demoOutcome2d
        GmshState.fresh).2.finalizeCount = 1 ∧
      (frontal_delaunay_2d_polydata demoPolyData none false demoOutcome2d
        GmshState.fresh).2.initialized = false) ∧
    ((frontal_delaunay_2d_polygon demoPolygon2c none false
        (GenOutcome.fail (Err.gmshError 7)) GmshState.fresh).1 =
          Except.error Err.valueError ∧
      (frontal_delaunay_2d_polygon demoPolygon2c none false
        (GenOutcome.fail (Err.gmshError 7)) GmshState.fresh).2.initCount = 1 ∧
      (frontal_delaunay_2d_polygon demoPolygon2c none false
        (GenOutcome.fail (Err.gmshError 7)) GmshState.fresh).2.finalizeCount = 0 ∧
      (frontal_delaunay_2d_polygon demoPolygon2c none false
        (GenOutcome.fail (Err.gmshError 7)) GmshState.fresh).2.initialized = true) := by
  obtain ⟨h3d, h2dA, h2dB⟩ := session_pairing_amended
  refine ⟨h3d demoSurface none demoOutcome3d GmshState.fresh rfl, ?_, ?_⟩
  · exact (h2dA demoPolyData none false demoOutcome2d GmshState.fresh (Except.ok ())
      (buildPolyData demoPolyData (resolveSizes (none : SizeSpec) demoPolyData.points.length)
        (setOptions2d (none : SizeSpec) (initializeK GmshState.fresh).2)).2 rfl rfl).1 () rfl
  · exact (h2dB demoPolygon2c none false (GenOutcome.fail (Err.gmshError 7))
      GmshState.fresh (Except.error Err.valueError)
      (buildPolygon demoPolygon2c (resolveRingSizes (none : RingSizeSpec)
          (demoPolygon2c.interiors.length + 1))
        (setOptions2d (none : RingSizeSpec) (initializeK GmshState.fresh).2)).2 rfl rfl).2
      Err.valueError rfl

/-! ### Trace characterization lemmas -/

theorem noNew_rfl (p : Event → Bool) (s : GmshState) : NoNew p s s := Eq.refl _

theorem noNew_trans {p : Event → Bool} {s t u : GmshState}
    (h1 : NoNew p s t) (h2 : NoNew p t u) : NoNew p s u := by
  unfold NoNew at h1 h2 ⊢
  rw [h2, h1]

theorem filter_append_single (p : Event → Bool) (tr : List Event) (e : Event)
    (he : p e = false) : (tr ++ [e]).filter p = tr.filter p := by
  simp [List.filter_append, he]

theorem expectedPoints3d_filter :
    ∀ (l : List (P3 × ℚ)) (i : Nat),
      (expectedPoints3d l i).filter Event.isAddPoint = expectedPoints3d l i ∧
      (expectedPoints3d l i).filter Event.isAddLine = [] ∧
      (expectedPoints3d l i).filter Event.isSetOption = [] := by
  intro l
  induction l with
  | nil => intro i; simp [expectedPoints3d]
  | cons hd tl ih =>
      intro i
      rcases hd with ⟨pt, sz⟩
      obtain ⟨h1, h2, h3⟩ := ih (i + 1)
      simp [expectedPoints3d, List.filter, Event.isAddPoint, Event.isAddLine,
        Event.isSetOption, h1, h2, h3]

theorem expectedPointsAuto_filter :
    ∀ (l : List (ℚ × P3)) (t : Int),
      (expectedPointsAuto l t).filter Event.isAddPoint = expectedPointsAuto l t ∧
      (expectedPointsAuto l t).filter Event.isAddLine = [] ∧
      (expectedPointsAuto l t).filter Event.isSetOption = [] := by
  intro l
  induction l with
  | nil => intro t; simp [expectedPointsAuto]
  | cons hd tl ih =>
      intro t
      rcases hd with ⟨sz, pt⟩
      obtain ⟨h1, h2, h3⟩ := ih (t + 1)
      simp [expectedPointsAuto, List.filter, Event.isAddPoint, Event.isAddLine,
        Event.isSetOption, h1, h2, h3]

theorem expectedLines_filter :
    ∀ (edges : List (Int × Int)) (t : Int),
      (expectedLines edges t).filter Event.isAddLine = expectedLines edges t ∧
      (expectedLines edges t).filter Event.isAddPoint = [] ∧
      (expectedLines edges t).filter Event.isSetOption = [] := by
  intro edges
  induction edges with
  | nil => intro t; simp [expectedLines]
  | cons hd tl ih =>
      intro t
      rcases hd with ⟨a, b⟩
      obtain ⟨h1, h2, h3⟩ := ih (t + 1)
      simp [expectedLines, List.filter, Event.isAddPoint, Event.isAddLine,
        Event.isSetOption, h1, h2, h3]

theorem expectedPolyLines_filter (lines : List Int) :
    ∀ (k i : Nat),
      (expectedPolyLines lines k i).filter Event.isAddLine = expectedPolyLines lines k i ∧
      (expectedPolyLines lines k i).filter Event.isAddPoint = [] ∧
      (expectedPolyLines lines k i).filter Event.isSetOption = [] := by
  intro k
  induction k with
  | zero => intro i; simp [expectedPolyLines]
  | succ k ih =>
      intro i
      obtain ⟨h1, h2, h3⟩ := ih (i + 1)
      simp [expectedPolyLines, List.filter, Event.isAddPoint, Event.isAddLine,
        Event.isSetOption, h1, h2, h3]

theorem expectedLines_append :
    ∀ (e1 e2 : List (Int × Int)) (t : Int),
      expectedLines (e1 ++ e2) t =
        expectedLines e1 t ++ expectedLines e2 (t + e1.length) := by
  intro e1
  induction e1 with
  | nil => intro e2 t; simp [expectedLines]
  | cons hd tl ih =>
      intro e2 t
      rcases hd with ⟨a, b⟩
      show Event.addLine t a b :: expectedLines (tl ++ e2) (t + 1) = _
      rw [ih e2 (t + 1)]
      simp only [expectedLines, List.length_cons]
      congr 2
      push_cast
      ring

theorem get?_getD :
    ∀ (l : List Int) (n : Nat), n < l.length → l.get? n = some (l.getD n 0) := by
  intro l
  induction l with
  | nil => intro n h; simp at h
  | cons a tl ih =>
      intro n h
      cases n with
      | zero => rfl
      | succ m => simpa [List.getD] using ih m (by simpa using h)

theorem setOptions3d_trace (ts : SizeSpec) (s : GmshState) :
    (setOptions3d ts s).trace = s.trace ++ opts3dTrace ts ∧
    (setOptions3d ts s).nextPointTag = s.nextPointTag ∧
    (setOptions3d ts s).nextLineTag = s.nextLineTag := by
  cases ts <;>
    simp [setOptions3d, setOpt, opts3dTrace, INITIAL_MESH_ONLY_3D, DELAUNAY_3D,
      SILENT, FALSE, SIMPLE]

theorem setOptions2d_trace (ts : Option α) (s : GmshState) :
    (setOptions2d ts s).trace = s.trace ++ opts2dTrace ts ∧
    (setOptions2d ts s).nextPointTag = s.nextPointTag ∧
    (setOptions2d ts s).nextLineTag = s.nextLineTag := by
  cases ts <;>
    simp [setOptions2d, setOpt, opts2dTrace, INITIAL_MESH_ONLY_2D, FRONTAL_DELAUNAY_2D,
      SILENT]

theorem addPoints3d_trace :
    ∀ (l : List (P3 × ℚ)) (i : Nat) (s : GmshState),
      (addPoints3d l i s).trace = s.trace ++ expectedPoints3d l i ∧
      (addPoints3d l i s).nextLineTag = s.nextLineTag := by
  intro l
  induction l with
  | nil => intro i s; simp [addPoints3d, expectedPoints3d]
  | cons hd tl ih =>
      intro i s
      rcases hd with ⟨pt, sz⟩
      simp only [addPoints3d, expectedPoints3d]
      obtain ⟨h1, h2⟩ := ih (i + 1) (addPointTagged pt.x pt.y pt.z sz ((i : Int) + 1) s)
      rw [h1, h2]
      constructor
      · simp [addPointTagged]
      · rfl

theorem addPoints2d_trace :
    ∀ (l : List (ℚ × P3)) (s : GmshState),
      (addPoints2d l s).2.trace = s.trace ++ expectedPointsAuto l s.nextPointTag ∧
      (addPoints2d l s).2.nextLineTag = s.nextLineTag := by
  intro l
  induction l with
  | nil => intro s; simp [addPoints2d, expectedPointsAuto]
  | cons hd tl ih =>
      intro s
      rcases hd with ⟨sz, pt⟩
      simp only [addPoints2d, addPointAuto, expectedPointsAuto]
      rcases hx : addPoints2d tl
          ({ s with
              nextPointTag := s.nextPointTag + 1
              trace := s.trace ++ [Event.addPoint s.nextPointTag pt.x pt.y pt.z sz] })
          with ⟨tags, s2⟩
      simp only [hx]
      obtain ⟨h1, h2⟩ := ih
        ({ s with
            nextPointTag := s.nextPointTag + 1
            trace := s.trace ++ [Event.addPoint s.nextPointTag pt.x pt.y pt.z sz] })
      rw [hx] at h1 h2
      constructor
      · rw [h1]; simp
      · rw [h2]

theorem addLinesAuto_trace :
    ∀ (edges : List (Int × Int)) (s : GmshState),
      (addLinesAuto edges s).2.trace = s.trace ++ expectedLines edges s.nextLineTag ∧
      (addLinesAuto edges s).2.nextLineTag = s.nextLineTag + edges.length := by
  intro edges
  induction edges with
  | nil => intro s; simp [addLinesAuto, expectedLines]
  | cons hd tl ih =>
      intro s
      rcases hd with ⟨a, b⟩
      simp only [addLinesAuto, addLineAuto, expectedLines]
      rcases hx : addLinesAuto tl
          ({ s with
              nextLineTag := s.nextLineTag + 1
              trace := s.trace ++ [Event.addLine s.nextLineTag a b] })
          with ⟨tags, s2⟩
      simp only [hx]
      obtain ⟨h1, h2⟩ := ih
        ({ s with
            nextLineTag := s.nextLineTag + 1
            trace := s.trace ++ [Event.addLine s.nextLineTag a b] })
      rw [hx] at h1 h2
      constructor
      · rw [h1]; simp
      · rw [h2]; simp only [List.length_cons]; push_cast; ring

theorem facesLoop3d_trace :
    ∀ (faces : List (List Nat)) (i : Nat) (s : GmshState),
      (facesLoop3d faces i s).2.trace.filter Event.isAddLine =
        s.trace.filter Event.isAddLine ++
          expectedLines (allFaceEdges faces) s.nextLineTag ∧
      (facesLoop3d faces i s).2.trace.filter Event.isAddPoint =
        s.trace.filter Event.isAddPoint ∧
      (facesLoop3d faces i s).2.trace.filter Event.isSetOption =
        s.trace.filter Event.isSetOption := by
  intro faces
  induction faces with
  | nil => intro i s; simp [facesLoop3d, allFaceEdges, expectedLines]
  | cons face rest ih =>
      intro i s
      simp only [facesLoop3d]
      rcases hl : addLinesAuto ((cyclicEdges face).map fun e =>
        ((e.1 : Int) + 1, (e.2 : Int) + 1)) s with ⟨ct, s1⟩
      simp only [hl]
      obtain ⟨hl1, hl2⟩ := addLinesAuto_trace ((cyclicEdges face).map fun e =>
        ((e.1 : Int) + 1, (e.2 : Int) + 1)) s
      rw [hl] at hl1 hl2
      obtain ⟨ih1, ih2, ih3⟩ := ih (i + 1) (addPlaneSurfaceTagged [(i : Int) + 1]
        ((i : Int) + 1) (addCurveLoopTagged ct ((i : Int) + 1) s1))
      have hs3trace : (addPlaneSurfaceTagged [(i : Int) + 1] ((i : Int) + 1)
          (addCurveLoopTagged ct ((i : Int) + 1) s1)).trace =
          (s1.trace ++ [Event.addCurveLoop ((i : Int) + 1) ct]) ++
            [Event.addPlaneSurface ((i : Int) + 1) [(i : Int) + 1]] := rfl
      have hs3nlt : (addPlaneSurfaceTagged [(i : Int) + 1] ((i : Int) + 1)
          (addCurveLoopTagged ct ((i : Int) + 1) s1)).nextLineTag = s1.nextLineTag := rfl
      have hedges : allFaceEdges (face :: rest) = ((cyclicEdges face).map fun e =>
          ((e.1 : Int) + 1, (e.2 : Int) + 1)) ++ allFaceEdges rest := by
        simp [allFaceEdges]
      refine ⟨?_, ?_, ?_⟩
      · rw [ih1, hs3trace, filter_append_single _ _ _ rfl,
          filter_append_single _ _ _ rfl, hl1, List.filter_append,
          (expectedLines_filter _ _).1, hs3nlt, hl2, hedges,
          expectedLines_append, List.append_assoc]
      · rw [ih2, hs3trace, filter_append_single _ _ _ rfl,
          filter_append_single _ _ _ rfl, hl1, List.filter_append,
          (expectedLines_filter _ _).2.1, List.append_nil]
      · rw [ih3, hs3trace, filter_append_single _ _ _ rfl,
          filter_append_single _ _ _ rfl, hl1, List.filter_append,
          (expectedLines_filter _ _).2.2, List.append_nil]

theorem linesLoop2d_noNew (lines : List Int) :
    ∀ (k i : Nat) (s : GmshState),
      NoNew Event.isAddPoint s (linesLoop2d lines k i s).2 ∧
      NoNew Event.isSetOption s (linesLoop2d lines k i s).2 := by
  intro k
  induction k with
  | zero => intro i s; exact ⟨noNew_rfl _ _, noNew_rfl _ _⟩
  | succ k ih =>
      intro i s
      simp only [linesLoop2d]
      cases h1 : lines.get? (i + 1) with
      | none => exact ⟨noNew_rfl _ _, noNew_rfl _ _⟩
      | some a =>
          cases h2 : lines.get? (i + 2) with
          | none => exact ⟨noNew_rfl _ _, noNew_rfl _ _⟩
          | some b =>
              obtain ⟨ihA, ihB⟩ := ih (i + 1)
                (addLineTagged (a + 1) (b + 1) ((i : Int) + 1) s)
              have hA : NoNew Event.isAddPoint s
                  (addLineTagged (a + 1) (b + 1) ((i : Int) + 1) s) :=
                filter_append_single _ _ _ rfl
              have hB : NoNew Event.isSetOption s
                  (addLineTagged (a + 1) (b + 1) ((i : Int) + 1) s) :=
                filter_append_single _ _ _ rfl
              exact ⟨noNew_trans hA ihA, noNew_trans hB ihB⟩

theorem linesLoop2d_trace (lines : List Int) :
    ∀ (k i : Nat) (s : GmshState), (∀ j, j < k → i + j + 2 < lines.length) →
      (linesLoop2d lines k i s).1 = Except.ok () ∧
      (linesLoop2d lines k i s).2.trace = s.trace ++ expectedPolyLines lines k i := by
  intro k
  induction k with
  | zero => intro i s _; simp [linesLoop2d, expectedPolyLines]
  | succ k ih =>
      intro i s h
      have hi1 : i + 1 < lines.length := by have := h 0 (Nat.succ_pos k); omega
      have hi2 : i + 2 < lines.length := by have := h 0 (Nat.succ_pos k); omega
      simp only [linesLoop2d, get?_getD lines (i + 1) hi1, get?_getD lines (i + 2) hi2]
      obtain ⟨ih1, ih2⟩ := ih (i + 1)
        (addLineTagged (lines.getD (i + 1) 0 + 1) (lines.getD (i + 2) 0 + 1)
          ((i : Int) + 1) s)
        (fun j hj => by have := h (j + 1) (by omega); omega)
      refine ⟨ih1, ?_⟩
      rw [ih2]
      show (s.trace ++ [Event.addLine ((i : Int) + 1) (lines.getD (i + 1) 0 + 1)
        (lines.getD (i + 2) 0 + 1)]) ++ expectedPolyLines lines k (i + 1) = _
      rw [List.append_assoc]
      rfl

theorem generate_mesh_trace (dim : Int) (o : GenOutcome) (s : GmshState) :
    (generate_mesh dim o s).2.trace =
      s.trace ++ [Event.generate dim, Event.clearCall, Event.finalizeCall] := by
  simp [generate_mesh, clearK, finalizeK]

theorem initializeK_uninit {s0 : GmshState} (h0 : s0.initialized = false) :
    initializeK s0 = (Except.ok (), sessionStart s0) := by
  unfold initializeK
  rw [if_neg (by simp [h0])]

theorem opts3dTrace_filter (ts : SizeSpec) :
    (opts3dTrace ts).filter Event.isSetOption = opts3dTrace ts ∧
    (opts3dTrace ts).filter Event.isAddPoint = [] ∧
    (opts3dTrace ts).filter Event.isAddLine = [] := by
  cases ts <;> exact ⟨rfl, rfl, rfl⟩

theorem opts2dTrace_filter (ts : Option α) :
    (opts2dTrace ts).filter Event.isSetOption = opts2dTrace ts ∧
    (opts2dTrace ts).filter Event.isAddPoint = [] ∧
    (opts2dTrace ts).filter Event.isAddLine = [] := by
  cases ts <;> exact ⟨rfl, rfl, rfl⟩

theorem build3d_trace (es : Surface) (ts : SizeSpec) (s : GmshState) :
    (build3d es ts s).trace.filter Event.isAddPoint =
      s.trace.filter Event.isAddPoint ++
        expectedPoints3d (es.points.zip (resolveSizes ts es.points.length)) 0 ∧
    (build3d es ts s).trace.filter Event.isAddLine =
      s.trace.filter Event.isAddLine ++
        expectedLines (allFaceEdges es.faces) s.nextLineTag ∧
    (build3d es ts s).trace.filter Event.isSetOption =
      s.trace.filter Event.isSetOption := by
  simp only [build3d]
  rcases hf : facesLoop3d es.faces 0
    (addPoints3d (es.points.zip (resolveSizes ts es.points.length)) 0 s) with ⟨sl, s2⟩
  simp only [hf]
  obtain ⟨hp1, hp2⟩ := addPoints3d_trace
    (es.points.zip (resolveSizes ts es.points.length)) 0 s
  obtain ⟨hf1, hf2, hf3⟩ := facesLoop3d_trace es.faces 0
    (addPoints3d (es.points.zip (resolveSizes ts es.points.length)) 0 s)
  rw [hf] at hf1 hf2 hf3
  rw [hp1, hp2] at hf1
  rw [hp1] at hf2 hf3
  have htail : (synchronizeK (addVolumeK [1] 1 (addSurfaceLoopK sl 1
      (synchronizeK (removeAllDuplicatesK s2))))).trace =
      s2.trace ++ [Event.removeAllDuplicates, Event.synchronize,
        Event.addSurfaceLoop 1 sl, Event.addVolume 1 [1], Event.synchronize] := by
    simp [synchronizeK, removeAllDuplicatesK, addSurfaceLoopK, addVolumeK]
  refine ⟨?_, ?_, ?_⟩
  · rw [htail, List.filter_append, hf2, List.filter_append,
      (expectedPoints3d_filter _ _).1]
    simp [List.filter, Event.isAddPoint, Event.isAddLine, Event.isSetOption]
  · rw [htail, List.filter_append, hf1, List.filter_append,
      (expectedPoints3d_filter _ _).2.1]
    simp [List.filter, Event.isAddPoint, Event.isAddLine, Event.isSetOption]
  · rw [htail, List.filter_append, hf3, List.filter_append,
      (expectedPoints3d_filter _ _).2.2]
    simp [List.filter, Event.isAddPoint, Event.isAddLine, Event.isSetOption]

/-- Trace of a full `delaunay_3d` invocation from an uninitialized state:
the option calls are exactly those selected by `target_sizes`, the point
calls are exactly one per zipped input point with tag `i + 1`, and the
line calls are exactly one per wrap-around face edge, with automatic tags
counting up from 1 and endpoints the 1-based tags of the edge's
endpoints. -/
theorem delaunay_3d_traces (es : Surface) (ts : SizeSpec) (o : GenOutcome)
    (s0 : GmshState) (h0 : s0.initialized = false) :
    (delaunay_3d es ts o s0).2.trace.filter Event.isSetOption = opts3dTrace ts ∧
    (delaunay_3d es ts o s0).2.trace.filter Event.isAddPoint =
      expectedPoints3d (es.points.zip (resolveSizes ts es.points.length)) 0 ∧
    (delaunay_3d es ts o s0).2.trace.filter Event.isAddLine =
      expectedLines (allFaceEdges es.faces) 1 := by
  simp only [delaunay_3d, initializeK_uninit h0]
  rcases hg : generate_mesh 3 o (build3d es ts (setOptions3d ts (sessionStart s0)))
    with ⟨rg, sg⟩
  have hgt := generate_mesh_trace 3 o (build3d es ts (setOptions3d ts (sessionStart s0)))
  rw [hg] at hgt
  obtain ⟨hb1, hb2, hb3⟩ := build3d_trace es ts (setOptions3d ts (sessionStart s0))
  obtain ⟨ho1, ho2, ho3⟩ := setOptions3d_trace ts (sessionStart s0)
  have hstart : (sessionStart s0).trace = [Event.init] := rfl
  have hstartL : (sessionStart s0).nextLineTag = 1 := rfl
  rw [ho1, hstart] at hb1 hb2 hb3
  rw [ho3, hstartL] at hb2
  have hfilters : ∀ p : Event → Bool, sg.trace.filter p =
      (build3d es ts (setOptions3d ts (sessionStart s0))).trace.filter p ++
      ([Event.generate 3, Event.clearCall, Event.finalizeCall].filter p) := by
    intro p
    rw [hgt, List.filter_append]
  cases rg <;> simp only [hg] <;> refine ⟨?_, ?_, ?_⟩ <;>
    rw [hfilters] <;>
    simp only [hb1, hb2, hb3, List.filter_append, List.filter,
      (opts3dTrace_filter ts).1, (opts3dTrace_filter ts).2.1,
      (opts3dTrace_filter ts).2.2] <;>
    simp [Event.isSetOption, Event.isAddPoint, Event.isAddLine] <;>
    (cases ts <;> (intro a ha; fin_cases ha <;> rfl))

theorem buildPolyData_trace (es : PolyData) (sizes : List ℚ) (s : GmshState) :
    (buildPolyData es sizes s).2.trace.filter Event.isAddPoint =
      s.trace.filter Event.isAddPoint ++
        expectedPointsAuto (sizes.zip es.points) s.nextPointTag ∧
    (buildPolyData es sizes s).2.trace.filter Event.isSetOption =
      s.trace.filter Event.isSetOption := by
  simp only [buildPolyData]
  rcases hp : addPoints2d (sizes.zip es.points) s with ⟨ept, s1⟩
  simp only [hp]
  obtain ⟨hp1, _⟩ := addPoints2d_trace (sizes.zip es.points) s
  rw [hp] at hp1
  have hfiltP : s1.trace.filter Event.isAddPoint = s.trace.filter Event.isAddPoint ++
      expectedPointsAuto (sizes.zip es.points) s.nextPointTag := by
    rw [hp1, List.filter_append, (expectedPointsAuto_filter _ _).1]
  have hfiltO : s1.trace.filter Event.isSetOption = s.trace.filter Event.isSetOption := by
    rw [hp1, List.filter_append, (expectedPointsAuto_filter _ _).2.2, List.append_nil]
  cases h0 : es.lines.get? 0 with
  | none => exact ⟨hfiltP, hfiltO⟩
  | some n =>
      rcases hll : linesLoop2d es.lines (n - 1).toNat 0 s1 with ⟨r, s2⟩
      simp only [hll]
      obtain ⟨hnA, hnB⟩ := linesLoop2d_noNew es.lines (n - 1).toNat 0 s1
      rw [hll] at hnA hnB
      unfold NoNew at hnA hnB
      cases r with
      | error e => exact ⟨hnA.trans hfiltP, hnB.trans hfiltO⟩
      | ok _ =>
          have htail : (embedK 0 ept 2 1 (synchronizeK (addPlaneSurfaceTagged [1] 1
              (addCurveLoopTagged ((List.range (n - 1).toNat).map fun k =>
                ((k : Int) + 1)) 1 s2)))).trace =
              s2.trace ++ [Event.addCurveLoop 1 ((List.range (n - 1).toNat).map fun k =>
                ((k : Int) + 1)), Event.addPlaneSurface 1 [1], Event.synchronize,
                Event.embed 0 ept 2 1] := by
            simp [embedK, synchronizeK, addPlaneSurfaceTagged, addCurveLoopTagged]
          constructor
          · rw [htail, List.filter_append, hnA, hfiltP]
            simp [List.filter, Event.isAddPoint]
          · rw [htail, List.filter_append, hnB, hfiltO]
            simp [List.filter, Event.isSetOption]

theorem buildPolyData_lines (es : PolyData) (sizes : List ℚ) (s : GmshState)
    (n : Int) (h0 : es.lines.get? 0 = some n)
    (hwf : ∀ j, j < (n - 1).toNat → j + 2 < es.lines.length) :
    (buildPolyData es sizes s).2.trace.filter Event.isAddLine =
      s.trace.filter Event.isAddLine ++ expectedPolyLines es.lines (n - 1).toNat 0 ∧
    (buildPolyData es sizes s).1 = Except.ok () := by
  simp only [buildPolyData]
  rcases hp : addPoints2d (sizes.zip es.points) s with ⟨ept, s1⟩
  simp only [hp, h0]
  obtain ⟨hp1, _⟩ := addPoints2d_trace (sizes.zip es.points) s
  rw [hp] at hp1
  obtain ⟨hok, htr⟩ := linesLoop2d_trace es.lines (n - 1).toNat 0 s1
    (fun j hj => by have := hwf j hj; omega)
  rcases hll : linesLoop2d es.lines (n - 1).toNat 0 s1 with ⟨r, s2⟩
  rw [hll] at hok htr
  cases r with
  | error e => simp at hok
  | ok _ =>
      have htail : (embedK 0 ept 2 1 (synchronizeK (addPlaneSurfaceTagged [1] 1
          (addCurveLoopTagged ((List.range (n - 1).toNat).map fun k =>
            ((k : Int) + 1)) 1 s2)))).trace =
          s2.trace ++ [Event.addCurveLoop 1 ((List.range (n - 1).toNat).map fun k =>
            ((k : Int) + 1)), Event.addPlaneSurface 1 [1], Event.synchronize,
            Event.embed 0 ept 2 1] := by
        simp [embedK, synchronizeK, addPlaneSurfaceTagged, addCurveLoopTagged]
      have hfin : (embedK 0 ept 2 1 (synchronizeK (addPlaneSurfaceTagged [1] 1
          (addCurveLoopTagged ((List.range (n - 1).toNat).map fun k =>
            ((k : Int) + 1)) 1 s2)))).trace.filter Event.isAddLine =
          s.trace.filter Event.isAddLine ++
            expectedPolyLines es.lines (n - 1).toNat 0 := by
        rw [htail, List.filter_append, htr, List.filter_append, hp1,
          List.filter_append, (expectedPointsAuto_filter _ _).2.1, List.append_nil,
          (expectedPolyLines_filter _ _ _).1]
        simp [List.filter, Event.isAddLine, List.append_assoc]
      exact ⟨hfin, rfl⟩

/-- Traces of a full PolyData-branch `frontal_delaunay_2d` invocation from
an uninitialized state: the option calls are exactly those selected by
`target_sizes` and the point calls are exactly one per zipped
(size, point) pair, with automatic tags counting up from 1. -/
theorem frontal_polydata_traces (es : PolyData) (ts : SizeSpec) (rec : Bool)
    (o : GenOutcome) (s0 : GmshState) (h0 : s0.initialized = false) :
    (frontal_delaunay_2d_polydata es ts rec o s0).2.trace.filter Event.isSetOption =
      opts2dTrace ts ∧
    (frontal_delaunay_2d_polydata es ts rec o s0).2.trace.filter Event.isAddPoint =
      expectedPointsAuto ((resolveSizes ts es.points.length).zip es.points) 1 := by
  simp only [frontal_delaunay_2d_polydata, initializeK_uninit h0]
  rcases hb : buildPolyData es (resolveSizes ts es.points.length)
    (setOptions2d ts (sessionStart s0)) with ⟨rb, sb⟩
  obtain ⟨hb1, hb2⟩ := buildPolyData_trace es (resolveSizes ts es.points.length)
    (setOptions2d ts (sessionStart s0))
  rw [hb] at hb1 hb2
  obtain ⟨ho1, ho2, _⟩ := setOptions2d_trace ts (sessionStart s0)
  rw [ho1, ho2] at hb1
  rw [ho1] at hb2
  have hstart : (sessionStart s0).trace = [Event.init] := rfl
  have hstartP : (sessionStart s0).nextPointTag = 1 := rfl
  rw [hstart, hstartP] at hb1
  rw [hstart] at hb2
  have hBP : sb.trace.filter Event.isAddPoint =
      expectedPointsAuto ((resolveSizes ts es.points.length).zip es.points) 1 := by
    rw [hb1, List.filter_append, (opts2dTrace_filter ts).2.1]
    simp [List.filter, Event.isAddPoint]
  have hBO : sb.trace.filter Event.isSetOption = opts2dTrace ts := by
    rw [hb2, List.filter_append, (opts2dTrace_filter ts).1]
    simp [List.filter, Event.isSetOption]
  cases rb with
  | error e => exact ⟨hBO, hBP⟩
  | ok _ =>
      have hs4 : (if rec then setRecombineK 2 1 sb else sb).trace.filter
          Event.isSetOption = sb.trace.filter Event.isSetOption ∧
          (if rec then setRecombineK 2 1 sb else sb).trace.filter
          Event.isAddPoint = sb.trace.filter Event.isAddPoint := by
        cases rec
        · simp
        · constructor <;>
            · show ((sb.trace ++ [Event.setRecombine 2 1]).filter _) = _
              rw [filter_append_single _ _ _ rfl]
      change (match generate_mesh 2 o (if rec then setRecombineK 2 1 sb else sb) with
          | (Except.error e, s5) => ((Except.error e : Except Err Mesh), s5)
          | (Except.ok mesh, s5) => (Except.ok (filter2d mesh), s5)).2.trace.filter
          Event.isSetOption = opts2dTrace ts ∧
        (match generate_mesh 2 o (if rec then setRecombineK 2 1 sb else sb) with
          | (Except.error e, s5) => ((Except.error e : Except Err Mesh), s5)
          | (Except.ok mesh, s5) => (Except.ok (filter2d mesh), s5)).2.trace.filter
          Event.isAddPoint =
            expectedPointsAuto ((resolveSizes ts es.points.length).zip es.points) 1
      rcases hg : generate_mesh 2 o (if rec then setRecombineK 2 1 sb else sb)
        with ⟨rg, sg⟩
      have hgt := generate_mesh_trace 2 o (if rec then setRecombineK 2 1 sb else sb)
      rw [hg] at hgt
      have hsg : ∀ p : Event → Bool,
          p (Event.generate 2) = false → p Event.clearCall = false →
          p Event.finalizeCall = false →
          sg.trace.filter p = (if rec then setRecombineK 2 1 sb else sb).trace.filter p := by
        intro p hp1 hp2 hp3
        rw [hgt, List.filter_append]
        simp [List.filter, hp1, hp2, hp3]
      cases rg <;>
        exact ⟨(hsg Event.isSetOption rfl rfl rfl).trans (hs4.1.trans hBO),
          (hsg Event.isAddPoint rfl rfl rfl).trans (hs4.2.trans hBP)⟩

/-- Line-creation trace of a PolyData-branch invocation on a well-formed
`lines` connectivity array. -/
theorem frontal_polydata_lines_trace (es : PolyData) (ts : SizeSpec) (rec : Bool)
    (o : GenOutcome) (s0 : GmshState) (n : Int) (h0 : s0.initialized = false)
    (hl0 : es.lines.get? 0 = some n)
    (hwf : ∀ j, j < (n - 1).toNat → j + 2 < es.lines.length) :
    (frontal_delaunay_2d_polydata es ts rec o s0).2.trace.filter Event.isAddLine =
      expectedPolyLines es.lines (n - 1).toNat 0 := by
  simp only [frontal_delaunay_2d_polydata, initializeK_uninit h0]
  rcases hb : buildPolyData es (resolveSizes ts es.points.length)
    (setOptions2d ts (sessionStart s0)) with ⟨rb, sb⟩
  obtain ⟨hbl, hbok⟩ := buildPolyData_lines es (resolveSizes ts es.points.length)
    (setOptions2d ts (sessionStart s0)) n hl0 hwf
  rw [hb] at hbl hbok
  obtain ⟨ho1, _, _⟩ := setOptions2d_trace ts (sessionStart s0)
  have hstart : (sessionStart s0).trace = [Event.init] := rfl
  rw [ho1, hstart] at hbl
  have hBL : sb.trace.filter Event.isAddLine = expectedPolyLines es.lines (n - 1).toNat 0 := by
    rw [hbl, List.filter_append, (opts2dTrace_filter ts).2.2]
    simp [List.filter, Event.isAddLine]
  cases rb with
  | error e => simp at hbok
  | ok _ =>
      have hs4 : (if rec then setRecombineK 2 1 sb else sb).trace.filter
          Event.isAddLine = sb.trace.filter Event.isAddLine := by
        cases rec
        · simp
        · show ((sb.trace ++ [Event.setRecombine 2 1]).filter _) = _
          rw [filter_append_single _ _ _ rfl]
      change (match generate_mesh 2 o (if rec then setRecombineK 2 1 sb else sb) with
          | (Except.error e, s5) => ((Except.error e : Except Err Mesh), s5)
          | (Except.ok mesh, s5) => (Except.ok (filter2d mesh), s5)).2.trace.filter
          Event.isAddLine = expectedPolyLines es.lines (n - 1).toNat 0
      rcases hg : generate_mesh 2 o (if rec then setRecombineK 2 1 sb else sb)
        with ⟨rg, sg⟩
      have hgt := generate_mesh_trace 2 o (if rec then setRecombineK 2 1 sb else sb)
      rw [hg] at hgt
      have hsg : sg.trace.filter Event.isAddLine =
          (if rec then setRecombineK 2 1 sb else sb).trace.filter Event.isAddLine := by
        rw [hgt, List.filter_append]
        simp [List.filter, Event.isAddLine]
      cases rg <;> exact hsg.trans (hs4.trans hBL)

theorem addLinesAuto_noNewOpt (edges : List (Int × Int)) (s : GmshState) :
    NoNew Event.isSetOption s (addLinesAuto edges s).2 := by
  unfold NoNew
  rw [(addLinesAuto_trace edges s).1, List.filter_append,
    (expectedLines_filter _ _).2.2, List.append_nil]

theorem ringPointsLoop_noNewOpt :
    ∀ (l : List (ℚ × List ℚ)) (s : GmshState),
      NoNew Event.isSetOption s (ringPointsLoop l s).2 := by
  intro l
  induction l with
  | nil => intro s; exact noNew_rfl _ _
  | cons hd tl ih =>
      intro s
      rcases hd with ⟨sz, coord⟩
      simp only [ringPointsLoop]
      cases unpack3 coord with
      | error e => exact noNew_rfl _ _
      | ok xyz =>
          rcases xyz with ⟨x, y, z⟩
          simp only [addPointAuto]
          rcases hx : ringPointsLoop tl
              ({ s with
                  nextPointTag := s.nextPointTag + 1
                  trace := s.trace ++ [Event.addPoint s.nextPointTag x y z sz] })
              with ⟨r, s2⟩
          have h2 := ih
            ({ s with
                nextPointTag := s.nextPointTag + 1
                trace := s.trace ++ [Event.addPoint s.nextPointTag x y z sz] })
          rw [hx] at h2
          have h1 : NoNew Event.isSetOption s
              ({ s with
                  nextPointTag := s.nextPointTag + 1
                  trace := s.trace ++ [Event.addPoint s.nextPointTag x y z sz] }) :=
            filter_append_single _ _ _ rfl
          cases r <;> exact noNew_trans h1 h2

theorem ringsLoop_noNewOpt :
    ∀ (l : List ((ℚ ⊕ List ℚ) × Ring)) (s : GmshState),
      NoNew Event.isSetOption s (ringsLoop l s).2 := by
  intro l
  induction l with
  | nil => intro s; exact noNew_rfl _ _
  | cons hd tl ih =>
      intro s
      simp only [ringsLoop]
      rcases h1 : ringPointsLoop
          ((match hd.1 with
            | Sum.inl q => List.replicate (hd.2.coords.length - 1) q
            | Sum.inr l => l).zip hd.2.coords.dropLast) s with ⟨r, s1⟩
      try simp only [h1]
      have hrp := ringPointsLoop_noNewOpt
        ((match hd.1 with
          | Sum.inl q => List.replicate (hd.2.coords.length - 1) q
          | Sum.inr l => l).zip hd.2.coords.dropLast) s
      rw [h1] at hrp
      cases r with
      | error e => exact hrp
      | ok tags =>
          rcases hl : addLinesAuto (cyclicEdgesInt tags) s1 with ⟨ctags, s2⟩
          try simp only [hl]
          have hla := addLinesAuto_noNewOpt (cyclicEdgesInt tags) s1
          rw [hl] at hla
          rcases hc : addCurveLoopAuto ctags s2 with ⟨wt, s3⟩
          try simp only [hc]
          have hca : NoNew Event.isSetOption s2 s3 := by
            have : NoNew Event.isSetOption s2 (addCurveLoopAuto ctags s2).2 :=
              filter_append_single _ _ _ rfl
            rw [hc] at this
            exact this
          rcases h2 : ringsLoop tl s3 with ⟨r2, s4⟩
          try simp only [h2]
          have h3 := ih s3
          rw [h2] at h3
          have h4 : NoNew Event.isSetOption s s4 :=
            noNew_trans (noNew_trans (noNew_trans hrp hla) hca) h3
          cases r2 <;> exact h4

theorem buildPolygon_noNewOpt (es : Polygon) (rsizes : List (ℚ ⊕ List ℚ))
    (s : GmshState) : NoNew Event.isSetOption s (buildPolygon es rsizes s).2 := by
  unfold buildPolygon
  rcases h1 : ringsLoop (rsizes.zip (es.exterior :: es.interiors)) s with ⟨r, s1⟩
  have h2 := ringsLoop_noNewOpt (rsizes.zip (es.exterior :: es.interiors)) s
  rw [h1] at h2
  cases r with
  | error e => exact h2
  | ok wireTags =>
      refine noNew_trans h2 ?_
      have hp : NoNew Event.isSetOption s1 (addPlaneSurfaceAuto wireTags s1).2 :=
        filter_append_single _ _ _ rfl
      exact noNew_trans hp (filter_append_single _ _ _ rfl)

/-- Option-setting trace of a full shapely-branch `frontal_delaunay_2d`
invocation from an uninitialized state, on every path including
construction failure. -/
theorem frontal_polygon_options_trace (es : Polygon) (ts : RingSizeSpec)
    (rec : Bool) (o : GenOutcome) (s0 : GmshState) (h0 : s0.initialized = false) :
    (frontal_delaunay_2d_polygon es ts rec o s0).2.trace.filter Event.isSetOption =
      opts2dTrace ts := by
  simp only [frontal_delaunay_2d_polygon, initializeK_uninit h0]
  rcases hb : buildPolygon es (resolveRingSizes ts (es.interiors.length + 1))
    (setOptions2d ts (sessionStart s0)) with ⟨rb, sb⟩
  have hno := buildPolygon_noNewOpt es (resolveRingSizes ts (es.interiors.length + 1))
    (setOptions2d ts (sessionStart s0))
  rw [hb] at hno
  unfold NoNew at hno
  obtain ⟨ho1, _, _⟩ := setOptions2d_trace ts (sessionStart s0)
  have hBO : sb.trace.filter Event.isSetOption = opts2dTrace ts := by
    rw [hno, ho1]
    have hstart : (sessionStart s0).trace = [Event.init] := rfl
    rw [hstart, List.filter_append, (opts2dTrace_filter ts).1]
    simp [List.filter, Event.isSetOption]
  cases rb with
  | error e => exact hBO
  | ok _ =>
      have hs4 : (if rec then setRecombineK 2 1 sb else sb).trace.filter
          Event.isSetOption = sb.trace.filter Event.isSetOption := by
        cases rec
        · simp
        · show ((sb.trace ++ [Event.setRecombine 2 1]).filter _) = _
          rw [filter_append_single _ _ _ rfl]
      change (match generate_mesh 2 o (if rec then setRecombineK 2 1 sb else sb) with
          | (Except.error e, s5) => ((Except.error e : Except Err Mesh), s5)
          | (Except.ok mesh, s5) => (Except.ok (filter2d mesh), s5)).2.trace.filter
          Event.isSetOption = opts2dTrace ts
      rcases hg : generate_mesh 2 o (if rec then setRecombineK 2 1 sb else sb)
        with ⟨rg, sg⟩
      have hgt := generate_mesh_trace 2 o (if rec then setRecombineK 2 1 sb else sb)
      rw [hg] at hgt
      have hsg : sg.trace.filter Event.isSetOption =
          (if rec then setRecombineK 2 1 sb else sb).trace.filter Event.isSetOption := by
        rw [hgt, List.filter_append]
        simp [List.filter, Event.isSetOption]
      cases rg <;> exact hsg.trans (hs4.trans hBO)

/-! ### Uniform scalar mesh sizes (shapely branch) -/

theorem PtSizes.extend {q : ℚ} {s t : GmshState} (h : PtSizes q s) (d : List Event)
    (htr : t.trace = s.trace ++ d)
    (hd : ∀ e ∈ d, e.isAddPoint = true → e.sizeArg = q) : PtSizes q t := by
  intro e he hp
  rw [htr] at he
  rcases List.mem_append.mp he with he | he
  · exact h e he hp
  · exact hd e he hp

theorem ptSizes_ringPointsLoop (q : ℚ) :
    ∀ (l : List (ℚ × List ℚ)) (s : GmshState), (∀ pr ∈ l, pr.1 = q) →
      PtSizes q s → PtSizes q (ringPointsLoop l s).2 := by
  intro l
  induction l with
  | nil => intro s _ h; exact h
  | cons hd tl ih =>
      intro s hl h
      rcases hd with ⟨sz, coord⟩
      have hsz : sz = q := hl (sz, coord) (List.mem_cons_self _ _)
      simp only [ringPointsLoop]
      cases unpack3 coord with
      | error e => exact h
      | ok xyz =>
          rcases xyz with ⟨x, y, z⟩
          simp only [addPointAuto]
          rcases hx : ringPointsLoop tl
              ({ s with
                  nextPointTag := s.nextPointTag + 1
                  trace := s.trace ++ [Event.addPoint s.nextPointTag x y z sz] })
              with ⟨r, s2⟩
          have h1 : PtSizes q ({ s with
              nextPointTag := s.nextPointTag + 1
              trace := s.trace ++ [Event.addPoint s.nextPointTag x y z sz] }) :=
            h.extend _ rfl (by
              intro e he _
              rw [List.mem_singleton.mp he]
              exact hsz)
          have h2 := ih
            ({ s with
                nextPointTag := s.nextPointTag + 1
                trace := s.trace ++ [Event.addPoint s.nextPointTag x y z sz] })
            (fun pr hpr => hl pr (List.mem_cons_of_mem _ hpr)) h1
          rw [hx] at h2
          cases r <;> exact h2

theorem ptSizes_addLinesAuto (q : ℚ) (edges : List (Int × Int)) (s : GmshState)
    (h : PtSizes q s) : PtSizes q (addLinesAuto edges s).2 :=
  h.extend _ (addLinesAuto_trace edges s).1 (fun e he hp =>
    absurd hp (by
      have := (expectedLines_filter edges s.nextLineTag).2.1
      rw [List.filter_eq_nil] at this
      simpa using this e he))

theorem ptSizes_ringsLoop (q : ℚ) :
    ∀ (l : List ((ℚ ⊕ List ℚ) × Ring)) (s : GmshState),
      (∀ pr ∈ l, pr.1 = Sum.inl q) →
      PtSizes q s → PtSizes q (ringsLoop l s).2 := by
  intro l
  induction l with
  | nil => intro s _ h; exact h
  | cons hd tl ih =>
      intro s hl h
      rcases hd with ⟨rs, ring⟩
      have hrs : rs = Sum.inl q := hl (rs, ring) (List.mem_cons_self _ _)
      subst hrs
      simp only [ringsLoop]
      rcases h1 : ringPointsLoop
          ((List.replicate (ring.coords.length - 1) q).zip ring.coords.dropLast) s
          with ⟨r, s1⟩
      try simp only [h1]
      have hrp := ptSizes_ringPointsLoop q
        ((List.replicate (ring.coords.length - 1) q).zip ring.coords.dropLast) s
        (fun pr hpr => List.eq_of_mem_replicate (List.of_mem_zip
          (by rwa [← Prod.mk.eta (p := pr)] at hpr)).1)
        h
      rw [h1] at hrp
      cases r with
      | error e => exact hrp
      | ok tags =>
          rcases hlA : addLinesAuto (cyclicEdgesInt tags) s1 with ⟨ctags, s2⟩
          try simp only [hlA]
          have hla := ptSizes_addLinesAuto q (cyclicEdgesInt tags) s1 hrp
          rw [hlA] at hla
          rcases hc : addCurveLoopAuto ctags s2 with ⟨wt, s3⟩
          try simp only [hc]
          have hca : PtSizes q s3 := by
            have : PtSizes q (addCurveLoopAuto ctags s2).2 :=
              hla.extend [Event.addCurveLoop s2.nextCurveLoopTag ctags] rfl (by
                intro e he hp
                rw [List.mem_singleton.mp he] at hp
                simp [Event.isAddPoint] at hp)
            rw [hc] at this
            exact this
          rcases h2 : ringsLoop tl s3 with ⟨r2, s4⟩
          try simp only [h2]
          have h3 := ih s3 (fun pr hpr => hl pr (List.mem_cons_of_mem _ hpr)) hca
          rw [h2] at h3
          cases r2 <;> exact h3

theorem ptSizes_buildPolygon (q : ℚ) (es : Polygon)
    (rsizes : List (ℚ ⊕ List ℚ)) (s : GmshState)
    (hl : ∀ pr ∈ rsizes, pr = Sum.inl q) (h : PtSizes q s) :
    PtSizes q (buildPolygon es rsizes s).2 := by
  unfold buildPolygon
  rcases h1 : ringsLoop (rsizes.zip (es.exterior :: es.interiors)) s with ⟨r, s1⟩
  have h2 := ptSizes_ringsLoop q (rsizes.zip (es.exterior :: es.interiors)) s
    (fun pr hpr => hl pr.1 (List.of_mem_zip
      (by rwa [← Prod.mk.eta (p := pr)] at hpr)).1)
    h
  rw [h1] at h2
  cases r with
  | error e => exact h2
  | ok wireTags =>
      refine (h2.extend [Event.addPlaneSurface s1.nextSurfaceTag wireTags,
        Event.synchronize] ?_ ?_)
      · simp [synchronizeK, addPlaneSurfaceAuto]
      · intro e he hp
        rcases List.mem_cons.mp he with he | he
        · rw [he] at hp; simp [Event.isAddPoint] at hp
        · rw [List.mem_singleton.mp he] at hp; simp [Event.isAddPoint] at hp

/-- Every point-creation call of a shapely-branch invocation with a
scalar target size `q` passes `q` as the mesh size. -/
theorem frontal_polygon_scalar_sizes (es : Polygon) (q : ℚ) (rec : Bool)
    (o : GenOutcome) (s0 : GmshState) (h0 : s0.initialized = false) :
    PtSizes q (frontal_delaunay_2d_polygon es (some (Sum.inl q)) rec o s0).2 := by
  simp only [frontal_delaunay_2d_polygon, initializeK_uninit h0]
  have hs1 : PtSizes q (sessionStart s0) := by
    intro e he hp
    rw [List.mem_singleton.mp he] at hp
    simp [Event.isAddPoint] at hp
  have hs2 : PtSizes q (setOptions2d (some (Sum.inl q) : RingSizeSpec)
      (sessionStart s0)) := by
    refine hs1.extend (opts2dTrace (some (Sum.inl q) : RingSizeSpec))
      (setOptions2d_trace _ _).1 ?_
    intro e he hp
    fin_cases he <;> simp [Event.isAddPoint] at hp
  rcases hb : buildPolygon es (resolveRingSizes (some (Sum.inl q))
    (es.interiors.length + 1)) (setOptions2d (some (Sum.inl q) : RingSizeSpec)
    (sessionStart s0)) with ⟨rb, sb⟩
  have hbs := ptSizes_buildPolygon q es
    (resolveRingSizes (some (Sum.inl q)) (es.interiors.length + 1))
    (setOptions2d (some (Sum.inl q) : RingSizeSpec) (sessionStart s0))
    (by
      intro pr hpr
      simp only [resolveRingSizes] at hpr
      exact List.eq_of_mem_replicate hpr)
    hs2
  rw [hb] at hbs
  cases rb with
  | error e => exact hbs
  | ok _ =>
      have hs4 : PtSizes q (if rec then setRecombineK 2 1 sb else sb) := by
        cases rec
        · simpa using hbs
        · refine hbs.extend [Event.setRecombine 2 1] rfl ?_
          intro e he hp
          rw [List.mem_singleton.mp he] at hp
          simp [Event.isAddPoint] at hp
      change PtSizes q (match generate_mesh 2 o
          (if rec then setRecombineK 2 1 sb else sb) with
        | (Except.error e, s5) => ((Except.error e : Except Err Mesh), s5)
        | (Except.ok mesh, s5) => (Except.ok (filter2d mesh), s5)).2
      rcases hg : generate_mesh 2 o (if rec then setRecombineK 2 1 sb else sb)
        with ⟨rg, sg⟩
      have hgt := generate_mesh_trace 2 o (if rec then setRecombineK 2 1 sb else sb)
      rw [hg] at hgt
      have hsgP : PtSizes q sg := by
        refine hs4.extend [Event.generate 2, Event.clearCall, Event.finalizeCall]
          hgt ?_
        intro e he hp
        rcases List.mem_cons.mp he with he | he
        · rw [he] at hp; simp [Event.isAddPoint] at hp
        · rcases List.mem_cons.mp he with he | he
          · rw [he] at hp; simp [Event.isAddPoint] at hp
          · rw [List.mem_singleton.mp he] at hp; simp [Event.isAddPoint] at hp
      cases rg <;> exact hsgP

theorem expectedPoints3d_length :
    ∀ (l : List (P3 × ℚ)) (i : Nat), (expectedPoints3d l i).length = l.length := by
  intro l
  induction l with
  | nil => intro i; rfl
  | cons hd tl ih =>
      intro i
      rcases hd with ⟨pt, sz⟩
      simp [expectedPoints3d, ih (i + 1)]

theorem expectedPointsAuto_length :
    ∀ (l : List (ℚ × P3)) (t : Int), (expectedPointsAuto l t).length = l.length := by
  intro l
  induction l with
  | nil => intro t; rfl
  | cons hd tl ih =>
      intro t
      rcases hd with ⟨sz, pt⟩
      simp [expectedPointsAuto, ih (t + 1)]

theorem expectedPoints3d_sizes (q : ℚ) :
    ∀ (l : List (P3 × ℚ)) (i : Nat), (∀ pr ∈ l, pr.2 = q) →
      ∀ e ∈ expectedPoints3d l i, e.sizeArg = q := by
  intro l
  induction l with
  | nil => intro i _ e he; simp [expectedPoints3d] at he
  | cons hd tl ih =>
      intro i hq e he
      rcases hd with ⟨pt, sz⟩
      simp only [expectedPoints3d, List.mem_cons] at he
      rcases he with he | he
      · rw [he]
        exact hq (pt, sz) (List.mem_cons_self _ _)
      · exact ih (i + 1) (fun pr hpr => hq pr (List.mem_cons_of_mem _ hpr)) e he

theorem expectedPointsAuto_sizes (q : ℚ) :
    ∀ (l : List (ℚ × P3)) (t : Int), (∀ pr ∈ l, pr.1 = q) →
      ∀ e ∈ expectedPointsAuto l t, e.sizeArg = q := by
  intro l
  induction l with
  | nil => intro t _ e he; simp [expectedPointsAuto] at he
  | cons hd tl ih =>
      intro t hq e he
      rcases hd with ⟨sz, pt⟩
      simp only [expectedPointsAuto, List.mem_cons] at he
      rcases he with he | he
      · rw [he]
        exact hq (sz, pt) (List.mem_cons_self _ _)
      · exact ih (t + 1) (fun pr hpr => hq pr (List.mem_cons_of_mem _ hpr)) e he

/-- C5: the meshing strategy is selected solely by whether a target size
was supplied, in both `frontal_delaunay_2d` branches and in
`delaunay_3d`: with `target_sizes = None` the initial-mesh-only constant 3
is set for `Mesh.Algorithm` and the
mesh-size-from-boundary/points/curvature options are set to 0; with a
target size supplied, `Mesh.Algorithm = 6` (2D) respectively
`Mesh.Algorithm3D = 1` (3D) is set instead (see `opts2dTrace` and
`opts3dTrace` for the exact option lists). -/
theorem algorithm_option_selection :
    (∀ (es : Surface) (ts : SizeSpec) (o : GenOutcome) (s0 : GmshState),
      s0.initialized = false →
      (delaunay_3d es ts o s0).2.trace.filter Event.isSetOption = opts3dTrace ts) ∧
    (∀ (es : PolyData) (ts : SizeSpec) (rec : Bool) (o : GenOutcome)
        (s0 : GmshState), s0.initialized = false →
      (frontal_delaunay_2d_polydata es ts rec o s0).2.trace.filter Event.isSetOption =
        opts2dTrace ts) ∧
    (∀ (es : Polygon) (ts : RingSizeSpec) (rec : Bool) (o : GenOutcome)
        (s0 : GmshState), s0.initialized = false →
      (frontal_delaunay_2d_polygon es ts rec o s0).2.trace.filter Event.isSetOption =
        opts2dTrace ts) :=
  ⟨fun es ts o s0 h0 => (delaunay_3d_traces es ts o s0 h0).1,
   fun es ts rec o s0 h0 => (frontal_polydata_traces es ts rec o s0 h0).1,
   fun es ts rec o s0 h0 => frontal_polygon_options_trace es ts rec o s0 h0⟩

/-- Witness for C5 at concrete invocations: default and sized runs of all
three wrappers. -/
theorem algorithm_option_selection_witness :
    (delaunay_3d demoSurface none demoOutcome3d GmshState.fresh).2.trace.filter
      Event.isSetOption = opts3dTrace none ∧
    (delaunay_3d demoSurface (some (Sum.inl 1)) demoOutcome3d
      GmshState.fresh).2.trace.filter Event.isSetOption =
      opts3dTrace (some (Sum.inl 1)) ∧
    (frontal_delaunay_2d_polydata demoPolyData (some (Sum.inl 2)) false demoOutcome2d
      GmshState.fresh).2.trace.filter Event.isSetOption =
      opts2dTrace (some (Sum.inl 2) : SizeSpec) ∧
    (frontal_delaunay_2d_polygon demoPolygon none false demoOutcome2d
      GmshState.fresh).2.trace.filter Event.isSetOption =
      opts2dTrace (none : RingSizeSpec) := by
  obtain ⟨h3d, h2dA, h2dB⟩ := algorithm_option_selection
  exact ⟨h3d demoSurface none demoOutcome3d GmshState.fresh rfl,
    h3d demoSurface (some (Sum.inl 1)) demoOutcome3d GmshState.fresh rfl,
    h2dA demoPolyData (some (Sum.inl 2)) false demoOutcome2d GmshState.fresh rfl,
    h2dB demoPolygon none false demoOutcome2d GmshState.fresh rfl⟩

/-- C6: the input translation is a direct sequential one-to-one mapping in
input order.  In `delaunay_3d` the `i`-th zipped input point yields
exactly one point-creation call with explicit tag `i + 1`, and each face
edge yields exactly one line-creation call connecting the 1-based tags of
its two endpoints; in the PolyData branch of `frontal_delaunay_2d` the
`i`-th zipped input point yields exactly one automatically tagged
point-creation call with tag `i + 1`, and the `i`-th polyline edge one
line-creation call with tag `i + 1` connecting `lines[i+1] + 1` to
`lines[i+2] + 1`; and `gmsh_to_pyvista_type` maps the eight kernel element
type codes 1, 2, 3, 4, 5, 6, 7, 15 to LINE, TRIANGLE, QUAD, TETRA,
HEXAHEDRON, WEDGE, PYRAMID, VERTEX respectively.  When the size argument
covers every point (always the case for `None` or a scalar) the zip is
one-to-one on the input points. -/
theorem input_translation_mapping :
    (∀ (es : Surface) (ts : SizeSpec) (o : GenOutcome) (s0 : GmshState),
      s0.initialized = false →
      (delaunay_3d es ts o s0).2.trace.filter Event.isAddPoint =
        expectedPoints3d (es.points.zip (resolveSizes ts es.points.length)) 0) ∧
    (∀ (es : Surface) (ts : SizeSpec),
      (match ts with
        | some (Sum.inr l) => es.points.length ≤ l.length
        | _ => True) →
      (es.points.zip (resolveSizes ts es.points.length)).length = es.points.length) ∧
    (∀ (es : Surface) (ts : SizeSpec) (o : GenOutcome) (s0 : GmshState),
      s0.initialized = false →
      (delaunay_3d es ts o s0).2.trace.filter Event.isAddLine =
        expectedLines (allFaceEdges es.faces) 1) ∧
    (∀ (es : PolyData) (ts : SizeSpec) (rec : Bool) (o : GenOutcome)
        (s0 : GmshState), s0.initialized = false →
      (frontal_delaunay_2d_polydata es ts rec o s0).2.trace.filter Event.isAddPoint =
        expectedPointsAuto ((resolveSizes ts es.points.length).zip es.points) 1) ∧
    (∀ (es : PolyData) (ts : SizeSpec) (rec : Bool) (o : GenOutcome)
        (s0 : GmshState) (n : Int), s0.initialized = false →
      es.lines.get? 0 = some n →
      (∀ j, j < (n - 1).toNat → j + 2 < es.lines.length) →
      (frontal_delaunay_2d_polydata es ts rec o s0).2.trace.filter Event.isAddLine =
        expectedPolyLines es.lines (n - 1).toNat 0) ∧
    (gmsh_to_pyvista_type 1 = some CellType.line ∧
      gmsh_to_pyvista_type 2 = some CellType.triangle ∧
      gmsh_to_pyvista_type 3 = some CellType.quad ∧
      gmsh_to_pyvista_type 4 = some CellType.tetra ∧
      gmsh_to_pyvista_type 5 = some CellType.hexahedron ∧
      gmsh_to_pyvista_type 6 = some CellType.wedge ∧
      gmsh_to_pyvista_type 7 = some CellType.pyramid ∧
      gmsh_to_pyvista_type 15 = some CellType.vertex) := by
  refine ⟨fun es ts o s0 h0 => (delaunay_3d_traces es ts o s0 h0).2.1, ?_,
    fun es ts o s0 h0 => (delaunay_3d_traces es ts o s0 h0).2.2,
    fun es ts rec o s0 h0 => (frontal_polydata_traces es ts rec o s0 h0).2,
    fun es ts rec o s0 n h0 hl0 hwf =>
      frontal_polydata_lines_trace es ts rec o s0 n h0 hl0 hwf,
    by decide⟩
  intro es ts h
  cases ts with
  | none => simp [resolveSizes, List.length_zip]
  | some v =>
      cases v with
      | inl q => simp [resolveSizes, List.length_zip]
      | inr l =>
          simp only [resolveSizes, List.length_zip]
          omega

/-- Witness for C6 at concrete invocations of both wrappers. -/
theorem input_translation_mapping_witness :
    (delaunay_3d demoSurface (some (Sum.inl 1)) demoOutcome3d
      GmshState.fresh).2.trace.filter Event.isAddPoint =
      expectedPoints3d (demoSurface.points.zip
        (resolveSizes (some (Sum.inl 1)) demoSurface.points.length)) 0 ∧
    (demoSurface.points.zip (resolveSizes (some (Sum.inl 1))
      demoSurface.points.length)).length = demoSurface.points.length ∧
    (delaunay_3d demoSurface (some (Sum.inl 1)) demoOutcome3d
      GmshState.fresh).2.trace.filter Event.isAddLine =
      expectedLines (allFaceEdges demoSurface.faces) 1 ∧
    (frontal_delaunay_2d_polydata demoPolyData (some (Sum.inl 2)) false demoOutcome2d
      GmshState.fresh).2.trace.filter Event.isAddPoint =
      expectedPointsAuto ((resolveSizes (some (Sum.inl 2))
        demoPolyData.points.length).zip demoPolyData.points) 1 ∧
    (frontal_delaunay_2d_polydata demoPolyData (some (Sum.inl 2)) false demoOutcome2d
      GmshState.fresh).2.trace.filter Event.isAddLine =
      expectedPolyLines demoPolyData.lines ((3 : Int) - 1).toNat 0 := by
  obtain ⟨hA, hB, hC, hD, hE, _⟩ := input_translation_mapping
  exact ⟨hA demoSurface (some (Sum.inl 1)) demoOutcome3d GmshState.fresh rfl,
    hB demoSurface (some (Sum.inl 1)) trivial,
    hC demoSurface (some (Sum.inl 1)) demoOutcome3d GmshState.fresh rfl,
    hD demoPolyData (some (Sum.inl 2)) false demoOutcome2d GmshState.fresh rfl,
    hE demoPolyData (some (Sum.inl 2)) false demoOutcome2d GmshState.fresh 3 rfl rfl
      (by decide)⟩

/-- C7: a scalar target size is applied uniformly — `delaunay_3d` and the
PolyData branch of `frontal_delaunay_2d` make exactly one point-creation
call per input point, each carrying the scalar size, and in the
shapely-Polygon branch (where the scalar is first replicated once per
ring) every point-creation call carries the scalar size; a per-vertex
sequence is used element-wise, the `i`-th size paired with the `i`-th
point. -/
theorem scalar_size_uniform_and_sequence_elementwise :
    (∀ (es : Surface) (q : ℚ) (o : GenOutcome) (s0 : GmshState),
      s0.initialized = false →
      ((delaunay_3d es (some (Sum.inl q)) o s0).2.trace.filter
        Event.isAddPoint).length = es.points.length ∧
      ∀ e ∈ (delaunay_3d es (some (Sum.inl q)) o s0).2.trace.filter
        Event.isAddPoint, e.sizeArg = q) ∧
    (∀ (es : PolyData) (q : ℚ) (rec : Bool) (o : GenOutcome) (s0 : GmshState),
      s0.initialized = false →
      ((frontal_delaunay_2d_polydata es (some (Sum.inl q)) rec o
        s0).2.trace.filter Event.isAddPoint).length = es.points.length ∧
      ∀ e ∈ (frontal_delaunay_2d_polydata es (some (Sum.inl q)) rec o
        s0).2.trace.filter Event.isAddPoint, e.sizeArg = q) ∧
    (∀ (es : Polygon) (q : ℚ) (rec : Bool) (o : GenOutcome) (s0 : GmshState),
      s0.initialized = false →
      ∀ e ∈ (frontal_delaunay_2d_polygon es (some (Sum.inl q)) rec o s0).2.trace,
        e.isAddPoint = true → e.sizeArg = q) ∧
    (∀ (es : Surface) (l : List ℚ) (o : GenOutcome) (s0 : GmshState),
      s0.initialized = false →
      (delaunay_3d es (some (Sum.inr l)) o s0).2.trace.filter Event.isAddPoint =
        expectedPoints3d (es.points.zip l) 0) ∧
    (∀ (es : PolyData) (l : List ℚ) (rec : Bool) (o : GenOutcome) (s0 : GmshState),
      s0.initialized = false →
      (frontal_delaunay_2d_polydata es (some (Sum.inr l)) rec o
        s0).2.trace.filter Event.isAddPoint =
        expectedPointsAuto (l.zip es.points) 1) := by
  refine ⟨?_, ?_, ?_, ?_, ?_⟩
  · intro es q o s0 h0
    have h := (delaunay_3d_traces es (some (Sum.inl q)) o s0 h0).2.1
    rw [h]
    constructor
    · rw [expectedPoints3d_length]
      simp [resolveSizes, List.length_zip]
    · refine expectedPoints3d_sizes q _ 0 ?_
      intro pr hpr
      have := (List.of_mem_zip (by rwa [← Prod.mk.eta (p := pr)] at hpr)).2
      simp only [resolveSizes] at this
      exact List.eq_of_mem_replicate this
  · intro es q rec o s0 h0
    have h := (frontal_polydata_traces es (some (Sum.inl q)) rec o s0 h0).2
    rw [h]
    constructor
    · rw [expectedPointsAuto_length]
      simp [resolveSizes, List.length_zip]
    · refine expectedPointsAuto_sizes q _ 1 ?_
      intro pr hpr
      have := (List.of_mem_zip (by rwa [← Prod.mk.eta (p := pr)] at hpr)).1
      simp only [resolveSizes] at this
      exact List.eq_of_mem_replicate this
  · intro es q rec o s0 h0
    exact frontal_polygon_scalar_sizes es q rec o s0 h0
  · intro es l o s0 h0
    exact (delaunay_3d_traces es (some (Sum.inr l)) o s0 h0).2.1
  · intro es l rec o s0 h0
    exact (frontal_polydata_traces es (some (Sum.inr l)) rec o s0 h0).2

/-- Witness for C7 at concrete scalar- and sequence-sized invocations. -/
theorem scalar_size_uniform_witness :
    (((delaunay_3d demoSurface (some (Sum.inl 1)) demoOutcome3d
        GmshState.fresh).2.trace.filter Event.isAddPoint).length =
      demoSurface.points.length ∧
      ∀ e ∈ (delaunay_3d demoSurface (some (Sum.inl 1)) demoOutcome3d
        GmshState.fresh).2.trace.filter Event.isAddPoint, e.sizeArg = 1) ∧
    (∀ e ∈ (frontal_delaunay_2d_polygon demoPolygon (some (Sum.inl 5)) false
        demoOutcome2d GmshState.fresh).2.trace, e.isAddPoint = true →
      e.sizeArg = 5) ∧
    (frontal_delaunay_2d_polydata demoPolyData (some (Sum.inr [1, 2, 3])) false
      demoOutcome2d GmshState.fresh).2.trace.filter Event.isAddPoint =
      expectedPointsAuto ([(1 : ℚ), 2, 3].zip demoPolyData.points) 1 := by
  obtain ⟨hA, hB, hC, hD, hE⟩ := scalar_size_uniform_and_sequence_elementwise
  exact ⟨hA demoSurface 1 demoOutcome3d GmshState.fresh rfl,
    hC demoPolygon 5 false demoOutcome2d GmshState.fresh rfl,
    hE demoPolyData [1, 2, 3] false demoOutcome2d GmshState.fresh rfl⟩

/-- Witness for C4: concrete successful PolyData run whose kernel output
contains a stray line and a stray vertex element; the returned mesh is the
triangle alone. -/
theorem frontal_delaunay_2d_no_vertex_line_witness :
    (frontal_delaunay_2d_polydata demoPolyData (some (Sum.inl 2)) false demoOutcome2d
      GmshState.fresh).1 = Except.ok demoMesh2d ∧
    ∀ c ∈ demoMesh2d.cellList, c.1 ≠ CellType.vertex ∧ c.1 ≠ CellType.line := by
  constructor
  · rfl
  · exact frontal_delaunay_2d_no_vertex_line.1 demoPolyData (some (Sum.inl 2)) false
      demoOutcome2d GmshState.fresh demoMesh2d
      (frontal_delaunay_2d_polydata demoPolyData (some (Sum.inl 2)) false demoOutcome2d
        GmshState.fresh).2 rfl

end Skgmsh
